import Mathlib

/-!
Verification of the per-guild playback state machine of `AudioSourceManager`
(src/utils/audio.py) and of `AudioMixer` (src/utils/mix.py).

The embedding models the asyncio execution faithfully:
* the manager's mutable fields become the `AudioSourceManager` structure;
* each `asyncio.Task` created by `asyncio.create_task(self._play_loop_or_single(...))`
  becomes a `PTask` with an explicit status (`created` = scheduled / waiting for the
  play lock, `playing` = suspended at `play_done.wait()` holding the lock,
  `cancelRequested` = `.cancel()` was called but the `CancelledError` has not yet
  unwound the coroutine, and the terminal states `cancelled` / `completed`);
* a coroutine of `play` / `seek` / `fade_out` / `restart_with_fade_in` that is
  suspended at its `await self._play_task` (after calling `.cancel()`) becomes a
  `PendingLaunch` record carrying exactly the data the Python closure still holds;
  everything it re-reads from `self` after the await (e.g. `self.current_track` at
  audio.py lines 220, 305, 322) is read from the state again at resume time;
* the cooperative scheduler becomes an adversarially chosen list of `Ev` events;
  `step` returns `none` for events that are not schedulable in the given state
  (e.g. resuming a coroutine whose awaited task has not terminated).

Durations are rationals: no claim depends on floating-point rounding, only on
control flow and min/max/comparison arithmetic.
-/

namespace RPAMusicBot

/-- Track categories; audio.py line 31: `"music", "ambient", "mixed"`. -/
inductive Category
  | music
  | ambient
  | mixed
deriving DecidableEq

/-- Per-category fade configuration, audio.py lines 43-47. -/
structure FadeCfg where
  in_enabled : Bool
  out_enabled : Bool
  in_dur : ℚ
  out_dur : ℚ
deriving DecidableEq

/-- Defaults seeded in `__init__`, audio.py lines 43-47. -/
def defaultFadeConfig : Category → FadeCfg
  | .music => ⟨false, true, 3, 5⟩
  | .ambient => ⟨false, false, 2, 2⟩
  | .mixed => ⟨false, true, 3, 5⟩

/-- The disnake `VoiceClient` as seen through the calls the manager makes on it
(`is_connected`, `is_playing`, `is_paused`, `play`, `stop`, `pause`, `resume`). -/
structure Voice where
  connected : Bool
  playing : Bool
  paused : Bool
deriving DecidableEq

/-- Mutable fields of `AudioSourceManager.__init__`, audio.py lines 27-47.
`voice = none` models `self.voice is None`. -/
structure AudioSourceManager where
  current_track : Option String
  current_type : Option Category
  loop_flags : Category → Bool
  volumes : Category → ℚ
  fade_config : Category → FadeCfg
  start_time : Option ℚ
  start_seek_offset : ℚ
  voice : Option Voice

/-- `self.voice and self.voice.is_connected()`. -/
def AudioSourceManager.voiceConnected (m : AudioSourceManager) : Bool :=
  match m.voice with
  | some v => v.connected
  | none => false

/-- `self.voice and self.voice.is_playing()`. -/
def AudioSourceManager.voicePlaying (m : AudioSourceManager) : Bool :=
  match m.voice with
  | some v => v.playing
  | none => false

/-- `self.voice and self.voice.is_paused()`. -/
def AudioSourceManager.voicePaused (m : AudioSourceManager) : Bool :=
  match m.voice with
  | some v => v.paused
  | none => false

/-- Update the `is_playing` flag of the voice client (no-op when `voice is None`). -/
def AudioSourceManager.setPlaying (m : AudioSourceManager) (b : Bool) : AudioSourceManager :=
  { m with voice := m.voice.map fun v => { v with playing := b } }

/-- Update the `is_paused` flag of the voice client (no-op when `voice is None`). -/
def AudioSourceManager.setPaused (m : AudioSourceManager) (b : Bool) : AudioSourceManager :=
  { m with voice := m.voice.map fun v => { v with paused := b } }

/-- `self.volumes.get(self.current_type, 1.0)`, audio.py line 159. -/
def volOf (m : AudioSourceManager) : ℚ :=
  match m.current_type with
  | some c => m.volumes c
  | none => 1

/-- `self.loop_flags.get(self.current_type, False)`, audio.py line 103. -/
def loopFlagOf (m : AudioSourceManager) : Bool :=
  match m.current_type with
  | some c => m.loop_flags c
  | none => false

/-- Fade resolution in `play`, audio.py lines 71-75: a zero per-call fade value is
replaced by the configured duration if that fade direction is enabled
(`(not fade_in or float(fade_in) == 0.0)` is equivalent to `fade_in == 0.0`). -/
def resolveFades (cfg : FadeCfg) (fade_in fade_out : ℚ) : ℚ × ℚ :=
  ((if fade_in = 0 ∧ cfg.in_enabled then cfg.in_dur else fade_in),
   (if fade_out = 0 ∧ cfg.out_enabled then cfg.out_dur else fade_out))

/-- The fade-out duration `seek` carries over, audio.py lines 217-218:
`self.fade_config.get(self.current_type, {}).get("out_dur", 0.0)` if
`...get("out_enabled", False)` else `0.0`; a `None` current type hits the
empty-dict defaults. -/
def seekFadeOutDur (m : AudioSourceManager) : ℚ :=
  match m.current_type with
  | some c => if (m.fade_config c).out_enabled then (m.fade_config c).out_dur else 0
  | none => 0

/-- `get_current_position`, audio.py lines 266-272: `None` when `self._start_time`
is falsy (either `None` or `0.0`), otherwise `loop.time() - start + offset`. -/
def get_current_position (now : ℚ) (m : AudioSourceManager) : Option ℚ :=
  match m.start_time with
  | none => none
  | some t => if t = 0 then none else some (now - t + m.start_seek_offset)

/-- The clamp in `seek`, audio.py lines 202-205: `if duration and position >= duration:
position = 0.0`. A `None` or `0.0` probe result is falsy, so no clamping happens then. -/
def seekClampPos (durOpt : Option ℚ) (position : ℚ) : ℚ :=
  match durOpt with
  | none => position
  | some d => if ¬d = 0 ∧ position ≥ d then 0 else position

/-- The clamp in `_play_source`, audio.py lines 124-127: `if seek_seconds >= duration:
seek_seconds = 0.0`. -/
def playSourceClamp (duration seek_seconds : ℚ) : ℚ :=
  if seek_seconds ≥ duration then 0 else seek_seconds

/-- Seek offset that actually reaches ffmpeg when `seek(position)` relaunches the
pipeline on a track of duration `d` (the `seek` clamp followed by the
`_play_source` clamp; both probes resolve the same known duration `d`). -/
def effectiveSeekOffset (d position : ℚ) : ℚ :=
  playSourceClamp d (seekClampPos (some d) position)

/-- One element of the `-filter:a` chain built by `_create_audio_source`,
audio.py lines 163-182. -/
inductive AFilter
  | volume (v : ℚ)
  | afadeIn (start dur : ℚ)
  | afadeOut (start dur : ℚ)
deriving DecidableEq

/-- The filter chain of `_create_audio_source`, audio.py lines 163-182: always
`volume=<v>`; `afade=t=in:st=0:d=<fade_in>` when `fade_in and fade_in > 0.0`;
`afade=t=out:st=<max(max(total-seek,0)-fade_out,0)>:d=<fade_out>` when
`fade_out and fade_out > 0.0` (`total` is the probed duration of the file). -/
def createFilters (duration vol seek_seconds fade_in fade_out : ℚ) : List AFilter :=
  [AFilter.volume vol]
    ++ (if ¬fade_in = 0 ∧ fade_in > 0 then [AFilter.afadeIn 0 fade_in] else [])
    ++ (if ¬fade_out = 0 ∧ fade_out > 0 then
          [AFilter.afadeOut (max (max (duration - seek_seconds) 0 - fade_out) 0) fade_out]
        else [])

/-- The ffmpeg invocation built by `_play_source` + `_create_audio_source`:
`-ss <beforeSeek>` before the input plus the audio filter chain. -/
structure SourceSpec where
  beforeSeek : ℚ
  filters : List AFilter
deriving DecidableEq

/-- `_play_source`'s pure content for an existing file, audio.py lines 124-129 and
154-195: clamp the seek offset against the probed duration, then build the chain. -/
def playSourceSpec (duration vol seek_seconds fade_in fade_out : ℚ) : SourceSpec :=
  let sk := playSourceClamp duration seek_seconds
  ⟨sk, createFilters duration vol sk fade_in fade_out⟩

/-- Arguments of one `_play_loop_or_single(path, seek_seconds, fade_in, fade_out)`
coroutine.  `path = none` models the `None` a `set_volume`-spawned `play` can
capture from `self.current_track`. -/
structure LaunchSpec where
  path : Option String
  seek_seconds : ℚ
  fade_in : ℚ
  fade_out : ℚ
deriving DecidableEq

/-- Status of a `_play_loop_or_single` asyncio task.
`created`: scheduled, not yet inside `_play_source` (or between loop iterations);
`playing`: suspended at `play_done.wait()` inside the lock;
`cancelRequested`: `.cancel()` called, `CancelledError` not yet delivered;
`cancelled` / `completed`: terminal (`completed` covers both the natural break at
line 105 and the swallowed-exception exit at lines 116-117). -/
inductive TaskStatus
  | created
  | playing
  | cancelRequested
  | cancelled
  | completed
deriving DecidableEq

/-- `Task.done()` in asyncio terms. -/
def TaskStatus.isTerminal : TaskStatus → Bool
  | .cancelled => true
  | .completed => true
  | _ => false

/-- One `_play_loop_or_single` task.  `spec` holds the loop variables (which the
loop itself resets at lines 98-99); `source` is the last ffmpeg source the task
constructed; `loopRelaunches` counts executions of the natural-completion
relaunch branch. -/
structure PTask where
  spec : LaunchSpec
  status : TaskStatus
  source : Option SourceSpec
  loopRelaunches : Nat
deriving DecidableEq

/-- What a suspended operation will launch once its `await self._play_task`
returns.  `play` captured its arguments in locals (audio.py line 89); `seek`,
`fade_out` and `restart_with_fade_in` re-read `self.current_track` (and `seek`
also the fade config) after the await, so only the values they computed before
suspending are stored here. -/
inductive ResumeKind
  | play (path : Option String) (fade_in fade_out : ℚ)
  | seek (position : ℚ)
  | fade (position fade_d : ℚ)
  | restart (fade_duration : ℚ)
deriving DecidableEq

/-- A `play`/`seek`/`fade_out`/`restart_with_fade_in` coroutine suspended at its
`await self._play_task` after cancelling task number `awaiting`. -/
structure PendingLaunch where
  kind : ResumeKind
  awaiting : Nat
deriving DecidableEq

/-- Whole-system state: the manager plus every task ever created (task ids are
list positions), `self._play_task` as an id, the suspended operation coroutines,
the `play` coroutines scheduled fire-and-forget by `set_volume` (line 56) that
have not started running yet, and the holder of `self._play_lock`. -/
structure Sys where
  mgr : AudioSourceManager
  tasks : List PTask
  play_task : Option Nat
  pending : List PendingLaunch
  spawned : List (Option String × Category)
  lock_held_by : Option Nat

/-- External world: file existence, the cached `get_track_duration` result
(0.0 on probe failure) and the uncached `_get_audio_duration` probe used by
`seek` (`none` on probe failure). -/
structure Env where
  fileExists : String → Bool
  duration : String → ℚ
  probeSeek : String → Option ℚ

/-- The launch that actually happens (audio.py lines 89, 220-221, 304-305,
321-322), reading the manager state at launch time. -/
def launchSpecOf (m : AudioSourceManager) : ResumeKind → LaunchSpec
  | .play p fi fo => ⟨p, 0, fi, fo⟩
  | .seek pos => ⟨m.current_track, pos, 0, seekFadeOutDur m⟩
  | .fade pos fd => ⟨m.current_track, pos, 0, fd⟩
  | .restart fd => ⟨m.current_track, 0, fd, 0⟩

/-- `self._play_task = asyncio.create_task(self._play_loop_or_single(...))`. -/
def launchTask (s : Sys) (k : ResumeKind) : Sys :=
  { s with
    tasks := s.tasks ++ [⟨launchSpecOf s.mgr k, .created, none, 0⟩],
    play_task := some s.tasks.length }

/-- Effect of `task.cancel()` on one task: a no-op when it is already done. -/
def PTask.cancelReq (t : PTask) : PTask :=
  if t.status.isTerminal then t else { t with status := .cancelRequested }

/-- Replace the element at one position of a task list. -/
def modifyIdx (f : PTask → PTask) : List PTask → Nat → List PTask
  | [], _ => []
  | t :: ts, 0 => f t :: ts
  | t :: ts, n + 1 => t :: modifyIdx f ts n

/-- `if self._play_task and not self._play_task.done(): self._play_task.cancel()`
without awaiting (as in `stop` and `set_loop`). -/
def cancelActive (s : Sys) : Sys :=
  match s.play_task with
  | some i => { s with tasks := modifyIdx PTask.cancelReq s.tasks i }
  | none => s

/-- The id of the active task when `self._play_task and not self._play_task.done()`. -/
def Sys.activeTask? (s : Sys) : Option Nat :=
  match s.play_task with
  | some i =>
    match s.tasks.get? i with
    | some t => if t.status.isTerminal then none else some i
    | none => none
  | none => none

/-- The cancel-and-await-then-launch protocol shared by `play`, `seek`, `fade_out`
and `restart_with_fade_in` (audio.py lines 80-89, 209-221, 296-305, 313-322):
if an unfinished task exists, cancel it and suspend until it terminates
(recorded as a `PendingLaunch`); otherwise launch immediately. -/
def replaceActive (s : Sys) (k : ResumeKind) : Sys :=
  match s.activeTask? with
  | some i =>
    { s with
      tasks := modifyIdx PTask.cancelReq s.tasks i,
      pending := ⟨k, i⟩ :: s.pending }
  | none => launchTask s k

/-- `play(path, track_type, fade_in, fade_out)`, audio.py lines 65-89, up to its
only suspension point.  Guard at line 66; fade resolution at 71-75; the track is
recorded at 77-78 before the old task is cancelled. -/
def play (s : Sys) (path : Option String) (track_type : Category)
    (fade_in fade_out : ℚ) : Sys :=
  if s.mgr.voiceConnected = false then s
  else
    replaceActive
      { s with mgr := { s.mgr with current_track := path, current_type := some track_type } }
      (.play path (resolveFades (s.mgr.fade_config track_type) fade_in fade_out).1
        (resolveFades (s.mgr.fade_config track_type) fade_in fade_out).2)

/-- `seek(position)`, audio.py lines 197-221, up to its suspension point.  The
probe at line 202 is the uncached `_get_audio_duration`; the clamp at lines
203-205 only fires on a truthy duration. -/
def seek (env : Env) (s : Sys) (position : ℚ) : Sys :=
  match s.mgr.current_track with
  | none => s
  | some tr =>
    if env.fileExists tr = false then s
    else replaceActive s (.seek (seekClampPos (env.probeSeek tr) position))

/-- `fade_out(fade_duration)`, audio.py lines 274-305, up to its suspension point:
silently returns when there is no track, the file is gone, nothing is playing, or
`remaining <= 0`; otherwise clamps the duration to `min(requested, remaining)`. -/
def fade_out (env : Env) (s : Sys) (now fade_duration : ℚ) : Sys :=
  match s.mgr.current_track with
  | none => s
  | some tr =>
    if env.fileExists tr = false then s
    else if s.mgr.voicePlaying = false then s
    else if max (env.duration tr - (get_current_position now s.mgr).getD 0) 0 ≤ 0 then s
    else
      replaceActive s
        (.fade ((get_current_position now s.mgr).getD 0)
          (min fade_duration
            (max (env.duration tr - (get_current_position now s.mgr).getD 0) 0)))

/-- `restart_with_fade_in(fade_duration)`, audio.py lines 307-322, up to its
suspension point. -/
def restart_with_fade_in (env : Env) (s : Sys) (fade_duration : ℚ) : Sys :=
  match s.mgr.current_track with
  | none => s
  | some tr =>
    if env.fileExists tr = false then s
    else replaceActive s (.restart fade_duration)

/-- Clearing `self.current_track` and `self.current_type` (audio.py lines 242-243). -/
def clearTrack (s : Sys) : Sys :=
  { s with mgr := { s.mgr with current_track := none, current_type := none } }

/-- `stop()`, audio.py lines 234-243: stop the voice client if playing, cancel the
unfinished task without awaiting, clear the current track and type.
`self._play_task` itself is not reset. -/
def stop (s : Sys) : Sys :=
  clearTrack (cancelActive
    (if s.mgr.voicePlaying = true then { s with mgr := s.mgr.setPlaying false } else s))

/-- The flag update of `set_loop` (audio.py line 59). -/
def setLoopFlags (s : Sys) (track_type : Category) (enable : Bool) : Sys :=
  { s with mgr := { s.mgr with
      loop_flags := fun c => if c = track_type then enable else s.mgr.loop_flags c } }

/-- `set_loop(track_type, enable)`, audio.py lines 58-63: update the flag; when
disabling, cancel the unfinished task (whatever its category) without awaiting. -/
def set_loop (s : Sys) (track_type : Category) (enable : Bool) : Sys :=
  if enable = false then cancelActive (setLoopFlags s track_type enable)
  else setLoopFlags s track_type enable

/-- The volume update of `set_volume` (audio.py line 50). -/
def setVolumes (s : Sys) (track_type : Category) (volume : ℚ) : Sys :=
  { s with mgr := { s.mgr with
      volumes := fun c => if c = track_type then volume else s.mgr.volumes c } }

/-- `set_volume(track_type, volume)`, audio.py lines 49-56: update the volume; if
that category is currently playing, stop the voice client and fire-and-forget a
new `play(self.current_track, self.current_type)` coroutine (its arguments are
captured immediately, its body runs later). -/
def set_volume (s : Sys) (track_type : Category) (volume : ℚ) : Sys :=
  if s.mgr.current_type = some track_type ∧ s.mgr.voicePlaying = true then
    { setVolumes s track_type volume with
      mgr := (setVolumes s track_type volume).mgr.setPlaying false,
      spawned := s.spawned ++ [(s.mgr.current_track, track_type)] }
  else setVolumes s track_type volume

/-- `pause()`, audio.py lines 245-248: acts only on the voice client. -/
def pause (s : Sys) : Sys :=
  if s.mgr.voicePlaying = true then
    { s with mgr := (s.mgr.setPlaying false).setPaused true }
  else s

/-- `resume()`, audio.py lines 250-253: acts only on the voice client. -/
def resume (s : Sys) : Sys :=
  if s.mgr.voicePaused = true then
    { s with mgr := (s.mgr.setPaused false).setPlaying true }
  else s

/-- The code at audio.py lines 96-105 that runs synchronously once
`await self._play_source(...)` returns: reset `seek_seconds` and `fade_in` for the
next iteration (lines 98-99), release the lock, then either go around the loop
(`loop_flags.get(self.current_type, False)` true: one more relaunch, no fade-in,
offset 0) or break out and finish — the disconnect that an earlier revision
performed here is commented out (lines 106-109), so the voice client is untouched. -/
def postSource (s : Sys) (i : Nat) : Sys :=
  if loopFlagOf s.mgr then
    { s with
      tasks := modifyIdx (fun t =>
        { t with
          spec := { t.spec with seek_seconds := 0, fade_in := 0 },
          status := .created,
          loopRelaunches := t.loopRelaunches + 1 }) s.tasks i,
      lock_held_by := none }
  else
    { s with
      tasks := modifyIdx (fun t =>
        { t with
          spec := { t.spec with seek_seconds := 0, fade_in := 0 },
          status := .completed }) s.tasks i,
      lock_held_by := none }

/-- The body of one `_play_source` run for task `i` carrying loop variables `t`
(audio.py lines 119-152).  With a `None` path the `os.path.isfile(None)` call in
`_create_audio_source` raises, the exception is swallowed at lines 116-117 and
the task finishes.  With no voice connection or a missing file `_play_source`
returns at once and the loop logic runs immediately.  Otherwise the seek offset
is clamped, the source is built, the start marks are set (lines 134-136), the
voice client plays the new source, and the task suspends at `play_done.wait()`
holding the lock. -/
def task_begin_run (env : Env) (s : Sys) (i : Nat) (now : ℚ) (t : PTask) : Sys :=
  match t.spec.path with
  | none =>
    { s with tasks := modifyIdx (fun u => { u with status := .completed }) s.tasks i }
  | some p =>
    if s.mgr.voiceConnected = false then postSource s i
    else if env.fileExists p = false then postSource s i
    else
      { s with
        mgr := { (s.mgr.setPlaying true) with
          start_time := some now,
          start_seek_offset :=
            (playSourceSpec (env.duration p) (volOf s.mgr) t.spec.seek_seconds
              t.spec.fade_in t.spec.fade_out).beforeSeek },
        tasks := modifyIdx (fun u =>
          { u with
            status := .playing
            source := some (playSourceSpec (env.duration p) (volOf s.mgr)
              t.spec.seek_seconds t.spec.fade_in t.spec.fade_out) }) s.tasks i,
        lock_held_by := some i }

/-- Schedulability guard for entering the loop body: the task must be scheduled
(not cancelled, not suspended elsewhere) and `self._play_lock` must be free. -/
def task_begin_guard (env : Env) (s : Sys) (i : Nat) (now : ℚ) (t : PTask) : Option Sys :=
  if ¬t.status = .created then none
  else if ¬s.lock_held_by = none then none
  else some (task_begin_run env s i now t)

/-- A scheduled task enters the loop body: acquire the lock and run
`_play_source` (audio.py lines 119-152) until its first suspension. -/
def task_begin (env : Env) (s : Sys) (i : Nat) (now : ℚ) : Option Sys :=
  match s.tasks.get? i with
  | none => none
  | some t => task_begin_guard env s i now t

/-- `play_done` fires for a task suspended at `play_done.wait()` (natural end of
the source, an error, or a `voice.stop()` call) and no cancellation was requested:
the task resumes, the loop logic at lines 96-111 runs. -/
def task_natural_complete (s : Sys) (i : Nat) : Option Sys :=
  match s.tasks.get? i with
  | none => none
  | some t =>
    if t.status = .playing ∧ s.lock_held_by = some i then
      some (postSource { s with mgr := s.mgr.setPlaying false } i)
    else none

/-- A cancelled task unwinds: the `CancelledError` is delivered at its suspension
point, the `except asyncio.CancelledError` at lines 113-115 re-raises, the lock
is released, and the task terminates without running the loop logic. -/
def task_cancel_finish (s : Sys) (i : Nat) : Option Sys :=
  match s.tasks.get? i with
  | none => none
  | some t =>
    if t.status = .cancelRequested then
      some { s with
        tasks := modifyIdx (fun t => { t with status := .cancelled }) s.tasks i,
        lock_held_by := if s.lock_held_by = some i then none else s.lock_held_by }
    else none

/-- Resumption of the suspended coroutine `c` (which sits at position `k` of the
pending list): schedulable only once the awaited task is done. -/
def play_resume_aux (s : Sys) (k : Nat) (c : PendingLaunch) : Option Sys :=
  match s.tasks.get? c.awaiting with
  | none => none
  | some t =>
    if t.status.isTerminal then
      some (launchTask { s with pending := s.pending.eraseIdx k } c.kind)
    else none

/-- A suspended operation coroutine resumes: its `await self._play_task` returns
(only once the awaited task is done; a `CancelledError` from the await is caught,
audio.py lines 82-85) and the launch is performed against the current state. -/
def play_resume (s : Sys) (k : Nat) : Option Sys :=
  match s.pending.get? k with
  | none => none
  | some c => play_resume_aux s k c

/-- A `play` coroutine that `set_volume` scheduled starts running. -/
def spawned_start (s : Sys) (k : Nat) : Option Sys :=
  match s.spawned.get? k with
  | none => none
  | some pc => some (play { s with spawned := s.spawned.eraseIdx k } pc.1 pc.2 0 0)

/-- Scheduler events: the public operations (each runs atomically to its first
suspension point), resumptions of suspended coroutines, and task progress. -/
inductive Ev
  | playStart (path : Option String) (track_type : Category) (fade_in fade_out : ℚ)
  | seekStart (position : ℚ)
  | fadeOutStart (now fade_duration : ℚ)
  | restartStart (fade_duration : ℚ)
  | stopStep
  | setLoopStep (track_type : Category) (enable : Bool)
  | setVolumeStep (track_type : Category) (volume : ℚ)
  | pauseStep
  | resumeStep
  | spawnedStart (k : Nat)
  | playResume (k : Nat)
  | taskBegin (i : Nat) (now : ℚ)
  | taskNatural (i : Nat)
  | taskCancelFinish (i : Nat)

/-- One scheduler step; `none` when the event is not schedulable here. -/
def step (env : Env) (s : Sys) : Ev → Option Sys
  | .playStart p c fi fo => some (play s p c fi fo)
  | .seekStart pos => some (seek env s pos)
  | .fadeOutStart now req => some (fade_out env s now req)
  | .restartStart fd => some (restart_with_fade_in env s fd)
  | .stopStep => some (stop s)
  | .setLoopStep c b => some (set_loop s c b)
  | .setVolumeStep c v => some (set_volume s c v)
  | .pauseStep => some (pause s)
  | .resumeStep => some (resume s)
  | .spawnedStart k => spawned_start s k
  | .playResume k => play_resume s k
  | .taskBegin i now => task_begin env s i now
  | .taskNatural i => task_natural_complete s i
  | .taskCancelFinish i => task_cancel_finish s i

/-- Run a whole schedule. -/
def runTrace (env : Env) : Sys → List Ev → Option Sys
  | s, [] => some s
  | s, e :: es =>
    match step env s e with
    | some s' => runTrace env s' es
    | none => none

/-- Fresh manager, audio.py lines 27-47. -/
def initMgr (voice : Option Voice) : AudioSourceManager :=
  { current_track := none
    current_type := none
    loop_flags := fun _ => false
    volumes := fun _ => 1
    fade_config := defaultFadeConfig
    start_time := none
    start_seek_offset := 0
    voice := voice }

/-- Fresh system: no tasks, nothing pending. -/
def initSys (voice : Option Voice) : Sys :=
  { mgr := initMgr voice, tasks := [], play_task := none, pending := [], spawned := [],
    lock_held_by := none }

/-- Number of non-terminal (`not done`) playback tasks attached to the guild's
voice connection. -/
def activeCount (s : Sys) : Nat :=
  (s.tasks.filter fun t => !t.status.isTerminal).length

/-- Task id `i` exists and is not done. -/
def activeIdx (s : Sys) (i : Nat) : Prop :=
  ∃ t, s.tasks.get? i = some t ∧ t.status.isTerminal = false

/-- The events that run a (re)launching operation's first slice: these are the
operations whose overlap the serialized regime forbids. -/
def isLaunchOp : Ev → Bool
  | .playStart _ _ _ _ => true
  | .seekStart _ => true
  | .fadeOutStart _ _ => true
  | .restartStart _ => true
  | .spawnedStart _ => true
  | _ => false

/-- A schedule is serialized when no launching operation starts while another
one is still suspended at its `await self._play_task`. -/
def serialOK (env : Env) : Sys → List Ev → Bool
  | _, [] => true
  | s, e :: es =>
    (!isLaunchOp e || s.pending.isEmpty) &&
      (match step env s e with
       | some s' => serialOK env s' es
       | none => true)

/-- The inductive invariant for the serialized regime: pairwise at most one
non-terminal task, every non-terminal task is the one `self._play_task` points to
(or the one a unique suspended operation awaits), and at most one operation is
suspended. -/
def Inv (s : Sys) : Prop :=
  (∀ i j, activeIdx s i → activeIdx s j → i = j) ∧
  (∀ i, activeIdx s i →
    (s.pending = [] → s.play_task = some i) ∧
    (∀ c rest, s.pending = c :: rest → i = c.awaiting)) ∧
  s.pending.length ≤ 1

/-! ### Duration resolver (C7): `get_track_duration` with its `lru_cache(maxsize=64)`
against `_get_audio_duration`, which probes on every call. -/

/-- The `functools.lru_cache` store, most recently used first. -/
abbrev Cache := List (String × ℚ)

/-- Cache hit lookup. -/
def lruLookup : Cache → String → Option ℚ
  | [], _ => none
  | e :: c, p => if e.1 = p then some e.2 else lruLookup c p

/-- Remove every entry for a path. -/
def lruRemove : Cache → String → Cache
  | [], _ => []
  | e :: c, p => if e.1 = p then lruRemove c p else e :: lruRemove c p

/-- Insert as most recently used and evict beyond `maxsize=64`. -/
def lruInsert (c : Cache) (p : String) (v : ℚ) : Cache :=
  ((p, v) :: lruRemove c p).take 64

/-- Cache key list. -/
def cacheKeys (c : Cache) : List String := c.map Prod.fst

/-- `get_track_duration(path)`, audio.py lines 350-365, as observed through its
`lru_cache`: on a hit the cached value is returned (and the entry refreshed); on
a miss the external probe runs once and its result — `0.0` when the probe fails,
line 365 — is stored.  It never raises. -/
def get_track_duration (probe : String → Option ℚ) (c : Cache) (p : String) : ℚ × Cache :=
  match lruLookup c p with
  | some v => (v, lruInsert c p v)
  | none =>
    let v := (probe p).getD 0
    (v, lruInsert c p v)

/-- `_get_audio_duration(path)`, audio.py lines 223-232: a fresh uncached ffprobe
run on every call, `None` on failure. -/
def get_audio_duration (probe : String → Option ℚ) (p : String) : Option ℚ := probe p

/-- A duration request: `cached` goes through `get_track_duration`, `uncached`
through `_get_audio_duration` (the probe `seek` performs, line 202). -/
inductive DurCall
  | cached (p : String)
  | uncached (p : String)

/-- Run a sequence of duration requests, returning the final cache and the list
of paths for which the external probing process was actually invoked. -/
def durRun (probe : String → Option ℚ) : Cache → List DurCall → Cache × List String
  | c, [] => (c, [])
  | c, .cached p :: rest =>
    match lruLookup c p with
    | some v => durRun probe (lruInsert c p v) rest
    | none =>
      let r := durRun probe (lruInsert c p ((probe p).getD 0)) rest
      (r.1, p :: r.2)
  | c, .uncached p :: rest =>
    let r := durRun probe c rest
    (r.1, p :: r.2)

/-- How often a given path was probed over a run started with a cold cache. -/
def probeCount (probe : String → Option ℚ) (calls : List DurCall) (p : String) : Nat :=
  (durRun probe [] calls).2.count p

/-! ### Mixer (C8): `AudioMixer.mix_tracks`, mix.py lines 43-98. -/

/-- The designation made at mix.py lines 63-72: the longer input (ties go to the
music argument, `>=`) is the primary `[0:a]` stream, the other is looped with
`aloop=loop=-1:size=2e+07`, and `amix=...:duration=first` bounds the output by
the primary. -/
structure MixPlan where
  long_path : String
  short_path : String
  long_vol : ℚ
  short_vol : ℚ
deriving DecidableEq

/-- mix.py lines 60-72. -/
def mixPlanOf (dur : String → ℚ) (music_path ambient_path : String)
    (music_vol ambient_vol : ℚ) : MixPlan :=
  if dur music_path ≥ dur ambient_path then
    ⟨music_path, ambient_path, music_vol, ambient_vol⟩
  else
    ⟨ambient_path, music_path, ambient_vol, music_vol⟩

/-- Output duration under `amix=inputs=2:duration=first`: that of the primary. -/
def mixOutputDuration (dur : String → ℚ) (plan : MixPlan) : ℚ := dur plan.long_path

/-- The volume the plan applies to a given input file. -/
def mixVolFor (plan : MixPlan) (p : String) : ℚ :=
  if p = plan.long_path then plan.long_vol else plan.short_vol

/-- Exit status and captured stderr of the external ffmpeg run. -/
structure ProcResult where
  returncode : Int
  stderr : String

/-- `mix_tracks`, mix.py lines 43-98: build the plan, run ffmpeg once, and raise
carrying the captured diagnostics on a nonzero exit. -/
def mix_tracks (dur : String → ℚ) (runProc : MixPlan → String → ProcResult)
    (music_path ambient_path : String) (music_vol ambient_vol : ℚ)
    (output_path : String) : Except String Unit :=
  let plan := mixPlanOf dur music_path ambient_path music_vol ambient_vol
  let r := runProc plan output_path
  if r.returncode ≠ 0 then .error r.stderr else .ok ()

/-! ### Concrete scenario data used by counterexamples and witnesses. -/

/-- A connected, currently silent voice client. -/
def voiceOn : Voice := ⟨true, false, false⟩

/-- A connected voice client that is currently playing. -/
def voiceBusy : Voice := ⟨true, true, false⟩

/-- Benign environment: every file exists, every track lasts 100 seconds and
both probes succeed. -/
def env0 : Env :=
  { fileExists := fun _ => true, duration := fun _ => 100, probeSeek := fun _ => some 100 }

/-- Environment in which the duration probe fails: `get_track_duration` yields
`0.0` and `_get_audio_duration` yields `None`, while the files exist and play. -/
def envProbeFail : Env :=
  { fileExists := fun _ => true, duration := fun _ => 0, probeSeek := fun _ => none }

/-- Overlapping schedule: `play("a.mp3")` launches task 0; `play("b.mp3")`
cancels task 0 and suspends awaiting it; before task 0 unwinds, a second command
coroutine `play("c.mp3")` also observes the same unfinished task 0, cancels it
again and suspends too; task 0 then terminates, both suspended coroutines
resume, and each launches its own task. -/
def raceEvs : List Ev :=
  [Ev.playStart (some "a.mp3") Category.music 0 0,
   Ev.playStart (some "b.mp3") Category.music 0 0,
   Ev.playStart (some "c.mp3") Category.music 0 0,
   Ev.taskCancelFinish 0,
   Ev.playResume 0,
   Ev.playResume 0]

/-- Serialized schedule: the second `play` only starts once no operation is
suspended, and it runs to completion (resume) before anything else starts. -/
def serialEvs : List Ev :=
  [Ev.playStart (some "a.mp3") Category.music 0 0,
   Ev.playStart (some "b.mp3") Category.music 0 0,
   Ev.taskCancelFinish 0,
   Ev.playResume 0]

/-- The §8 scenario: `play("a.mp3","music")` immediately followed by
`play("b.mp3","music")`, then the cancelled task unwinds and the second `play`
resumes and launches. -/
def doublePlayEvs : List Ev :=
  [Ev.playStart (some "a.mp3") Category.music 0 0,
   Ev.playStart (some "b.mp3") Category.music 0 0,
   Ev.taskCancelFinish 0,
   Ev.playResume 0]

/-- Final state of the serialized schedule (used to witness the serialized
single-task theorem on a concrete run). -/
def serialFinal : Sys :=
  (runTrace env0 (initSys (some voiceOn)) serialEvs).getD (initSys none)

/-- A manager mid-playback of `"a.mp3"` (category `music`): task 0 is inside
`_play_source`, suspended at `play_done.wait()` with the lock held, the voice
client is playing, and the start marks say playback began at t = 10 with no
initial seek. -/
def sysPlaying : Sys :=
  { mgr := { initMgr (some voiceBusy) with
      current_track := some "a.mp3"
      current_type := some Category.music
      start_time := some 10
      start_seek_offset := 0 }
    tasks := [⟨⟨some "a.mp3", 0, 0, 0⟩, TaskStatus.playing,
      some (playSourceSpec 100 1 0 0 0), 0⟩]
    play_task := some 0
    pending := []
    spawned := []
    lock_held_by := some 0 }

/-- Same state with a freshly created (not yet begun) task for `"a.mp3"`. -/
def sysOneTask : Sys :=
  { mgr := { initMgr (some voiceOn) with
      current_track := some "a.mp3"
      current_type := some Category.music }
    tasks := [⟨⟨some "a.mp3", 0, 0, 5⟩, TaskStatus.created, none, 0⟩]
    play_task := some 0
    pending := []
    spawned := []
    lock_held_by := none }

/-! ## Theorems -/

/-- Helper: once a positive fade-out duration is subtracted, pre-clamping the
remaining time at zero makes no difference. -/
theorem max_sub_max_collapse (x fo : ℚ) (hfo : 0 < fo) :
    max (max x 0 - fo) 0 = max (x - fo) 0 := by
  rcases le_total 0 x with h | h
  · rw [max_eq_left h]
  · rw [max_eq_right h, max_eq_right (by linarith : (0 : ℚ) - fo ≤ 0),
      max_eq_right (by linarith : x - fo ≤ 0)]

/-- C4: for a current track of known duration `d` and requested position `p`,
`seek(p)` with `p ≥ d` restarts playback at offset `0` rather than failing, and
with `p < d` the pipeline is relaunched at `seek_seconds = p`; for nonnegative
requests (the command layer enforces `position ≥ 0`) the effective offset lies
in `[0, d)`. -/
theorem seek_clamps_to_duration (d p : ℚ) :
    (p ≥ d → effectiveSeekOffset d p = 0) ∧
    (p < d → effectiveSeekOffset d p = p) ∧
    (0 ≤ p → 0 < d → 0 ≤ effectiveSeekOffset d p ∧ effectiveSeekOffset d p < d) := by
  have hs : seekClampPos (some d) p = if ¬d = 0 ∧ p ≥ d then 0 else p := rfl
  unfold effectiveSeekOffset playSourceClamp
  rw [hs]
  by_cases h1 : ¬d = 0 ∧ p ≥ d
  · rw [if_pos h1]
    split_ifs with h2
    · exact ⟨fun _ => rfl, fun h => absurd h1.2 (not_le.mpr h), fun _ hd => ⟨le_rfl, hd⟩⟩
    · exact ⟨fun _ => rfl, fun h => absurd h1.2 (not_le.mpr h), fun _ hd => ⟨le_rfl, hd⟩⟩
  · rw [if_neg h1]
    split_ifs with h3
    · exact ⟨fun _ => rfl, fun h => absurd h3 (not_le.mpr h), fun _ hd => ⟨le_rfl, hd⟩⟩
    · exact ⟨fun h => absurd h h3, fun _ => rfl, fun hp _ => ⟨hp, not_le.mp h3⟩⟩

/-- Witness for `seek_clamps_to_duration` at `d = 100`: seeking to 150 restarts
at 0, seeking to 30 restarts at 30. -/
theorem seek_clamps_to_duration_witness :
    effectiveSeekOffset 100 150 = 0 ∧ effectiveSeekOffset 100 30 = 30 :=
  ⟨(seek_clamps_to_duration 100 150).1 (by norm_num),
   (seek_clamps_to_duration 100 30).2.1 (by norm_num)⟩

/-- Helper: membership characterization of the filter chain built by
`_create_audio_source`. -/
theorem mem_createFilters (duration vol seek_seconds fade_in fade_out : ℚ) (f : AFilter) :
    f ∈ createFilters duration vol seek_seconds fade_in fade_out ↔
      f = AFilter.volume vol ∨
      (0 < fade_in ∧ f = AFilter.afadeIn 0 fade_in) ∨
      (0 < fade_out ∧
        f = AFilter.afadeOut (max (max (duration - seek_seconds) 0 - fade_out) 0) fade_out) := by
  have hin : (¬fade_in = 0 ∧ fade_in > 0) ↔ 0 < fade_in :=
    ⟨fun h => h.2, fun h => ⟨ne_of_gt h, h⟩⟩
  have hout : (¬fade_out = 0 ∧ fade_out > 0) ↔ 0 < fade_out :=
    ⟨fun h => h.2, fun h => ⟨ne_of_gt h, h⟩⟩
  unfold createFilters
  split_ifs with h1 h2 h2
  · simp [hin.mp h1, hout.mp h2, or_assoc]
  · have := hout.not.mp h2
    simp only [this, false_and, or_false, List.append_nil]
    simp [hin.mp h1]
  · have := hin.not.mp h1
    simp only [this, false_and, false_or, List.nil_append]
    simp [hout.mp h2]
  · have hi := hin.not.mp h1
    have ho := hout.not.mp h2
    simp [hi, ho]

/-- C6: the filter chain always carries `volume=<v>`; it carries a fade-in
filter, necessarily with start `0` and duration `fade_in`, iff `fade_in > 0`;
and it carries a fade-out filter, necessarily with duration `fade_out` and start
`max((duration - seek_seconds) - fade_out, 0)`, iff `fade_out > 0`. -/
theorem create_filters_spec (duration vol seek_seconds fade_in fade_out : ℚ) :
    AFilter.volume vol ∈ createFilters duration vol seek_seconds fade_in fade_out ∧
    (AFilter.afadeIn 0 fade_in ∈ createFilters duration vol seek_seconds fade_in fade_out ↔
      0 < fade_in) ∧
    (∀ st dd, AFilter.afadeIn st dd ∈ createFilters duration vol seek_seconds fade_in fade_out →
      st = 0 ∧ dd = fade_in) ∧
    (AFilter.afadeOut (max (duration - seek_seconds - fade_out) 0) fade_out ∈
        createFilters duration vol seek_seconds fade_in fade_out ↔ 0 < fade_out) ∧
    (∀ st dd, AFilter.afadeOut st dd ∈ createFilters duration vol seek_seconds fade_in fade_out →
      st = max (duration - seek_seconds - fade_out) 0 ∧ dd = fade_out) := by
  refine ⟨?_, ?_, ?_, ?_, ?_⟩
  · rw [mem_createFilters]; exact Or.inl rfl
  · rw [mem_createFilters]
    constructor
    · rintro (h | ⟨hpos, -⟩ | ⟨-, h⟩)
      · cases h
      · exact hpos
      · cases h
    · intro h; exact Or.inr (Or.inl ⟨h, rfl⟩)
  · intro st dd hmem
    rw [mem_createFilters] at hmem
    rcases hmem with h | ⟨-, h⟩ | ⟨-, h⟩
    · cases h
    · cases h; exact ⟨rfl, rfl⟩
    · cases h
  · rw [mem_createFilters]
    constructor
    · rintro (h | ⟨-, h⟩ | ⟨hpos, -⟩)
      · cases h
      · cases h
      · exact hpos
    · intro h
      refine Or.inr (Or.inr ⟨h, ?_⟩)
      rw [max_sub_max_collapse _ _ h]
  · intro st dd hmem
    rw [mem_createFilters] at hmem
    rcases hmem with h | ⟨-, h⟩ | ⟨hpos, h⟩
    · cases h
    · cases h
    · cases h
      exact ⟨(max_sub_max_collapse _ _ hpos).symm ▸ rfl, rfl⟩

/-- Witness for `create_filters_spec`: a chain with volume 1, no fade-in and a
5-second fade-out on a 100-second track, checked concretely. -/
theorem create_filters_spec_witness :
    AFilter.afadeOut (max (100 - 0 - 5) 0) 5 ∈ createFilters 100 1 0 0 5 ∧
    ¬(0 : ℚ) < 0 :=
  ⟨(create_filters_spec 100 1 0 0 5).2.2.2.1.mpr (by norm_num), by norm_num⟩

/-- C8 counterexample: with two distinct files of equal duration,
`mix(A, B, ...)` designates `A` as the primary (the `>=` at mix.py line 63 breaks
the tie towards the music argument) while the swapped call designates `B`, so the
two calls do not designate the same track as the longer/primary one. -/
theorem mix_tie_counterexample :
    (mixPlanOf (fun _ => 5) "a.mp3" "b.mp3" 1 1).long_path = "a.mp3" ∧
    (mixPlanOf (fun _ => 5) "b.mp3" "a.mp3" 1 1).long_path = "b.mp3" ∧
    "a.mp3" ≠ "b.mp3" :=
  ⟨by norm_num [mixPlanOf], by norm_num [mixPlanOf], by decide⟩

/-- C8 amended: when the two durations differ, `mix(A, B, volA, volB)` and
`mix(B, A, volB, volA)` build the same plan — same primary, the shorter track is
the looped one, and each file keeps its own volume (durations equal: the music
argument wins the tie, so the designations of the two calls differ); in every
case the output duration is `max(duration A, duration B)` (amix bounded by the
primary) and a nonzero ffmpeg exit raises an error carrying the captured stderr. -/
theorem mix_tracks_amended (dur : String → ℚ) (runProc : MixPlan → String → ProcResult)
    (A B : String) (va vb : ℚ) (out : String) :
    (dur A ≠ dur B → mixPlanOf dur A B va vb = mixPlanOf dur B A vb va) ∧
    (dur B < dur A → (mixPlanOf dur A B va vb).long_path = A ∧
      (mixPlanOf dur A B va vb).short_path = B) ∧
    (dur A < dur B → (mixPlanOf dur A B va vb).long_path = B ∧
      (mixPlanOf dur A B va vb).short_path = A) ∧
    (A ≠ B →
      mixVolFor (mixPlanOf dur A B va vb) A = va ∧
      mixVolFor (mixPlanOf dur A B va vb) B = vb ∧
      mixVolFor (mixPlanOf dur B A vb va) A = va ∧
      mixVolFor (mixPlanOf dur B A vb va) B = vb) ∧
    mixOutputDuration dur (mixPlanOf dur A B va vb) = max (dur A) (dur B) ∧
    mixOutputDuration dur (mixPlanOf dur B A vb va) = max (dur A) (dur B) ∧
    ((runProc (mixPlanOf dur A B va vb) out).returncode ≠ 0 →
      mix_tracks dur runProc A B va vb out =
        Except.error (runProc (mixPlanOf dur A B va vb) out).stderr) := by
  refine ⟨?_, ?_, ?_, ?_, ?_, ?_, ?_⟩
  · intro hne
    unfold mixPlanOf
    rcases lt_or_gt_of_ne hne with h | h
    · rw [if_neg (not_le.mpr h), if_pos (le_of_lt h)]
    · rw [if_pos (le_of_lt h), if_neg (not_le.mpr h)]
  · intro h
    unfold mixPlanOf
    rw [if_pos (le_of_lt h)]
    exact ⟨rfl, rfl⟩
  · intro h
    unfold mixPlanOf
    rw [if_neg (not_le.mpr h)]
    exact ⟨rfl, rfl⟩
  · intro hAB
    have hBA : ¬B = A := fun h => hAB h.symm
    refine ⟨?_, ?_, ?_, ?_⟩ <;>
      · unfold mixPlanOf mixVolFor
        split_ifs with h1 h2 h2 <;>
          first
            | rfl
            | (exact absurd rfl h2)
            | (exact absurd h2 hAB)
            | (exact absurd h2 hBA)
  · unfold mixPlanOf mixOutputDuration
    split_ifs with h
    · exact (max_eq_left h).symm
    · exact (max_eq_right (le_of_not_le h)).symm
  · unfold mixPlanOf mixOutputDuration
    split_ifs with h
    · exact (max_eq_right h).symm
    · exact (max_eq_left (le_of_not_le h)).symm
  · intro h
    unfold mix_tracks
    rw [if_pos h]

/-- Witness for `mix_tracks_amended`: a 100s music file against a 40s ambient
file with a failing ffmpeg run. -/
theorem mix_tracks_amended_witness :
    mixPlanOf (fun p => if p = "m.mp3" then 100 else 40) "m.mp3" "amb.mp3" 1 (1 / 2) =
      mixPlanOf (fun p => if p = "m.mp3" then 100 else 40) "amb.mp3" "m.mp3" (1 / 2) 1 ∧
    mix_tracks (fun p => if p = "m.mp3" then 100 else 40) (fun _ _ => ⟨1, "boom"⟩)
      "m.mp3" "amb.mp3" 1 (1 / 2) "out.mp3" = Except.error "boom" :=
  ⟨(mix_tracks_amended (fun p => if p = "m.mp3" then 100 else 40) (fun _ _ => ⟨1, "boom"⟩)
      "m.mp3" "amb.mp3" 1 (1 / 2) "out.mp3").1 (by decide),
   (mix_tracks_amended (fun p => if p = "m.mp3" then 100 else 40) (fun _ _ => ⟨1, "boom"⟩)
      "m.mp3" "amb.mp3" 1 (1 / 2) "out.mp3").2.2.2.2.2.2 (by decide)⟩

/-! Helper lemmas about the LRU cache model. -/

theorem cacheKeys_nil : cacheKeys [] = [] := rfl

theorem cacheKeys_cons (e : String × ℚ) (c : Cache) :
    cacheKeys (e :: c) = e.1 :: cacheKeys c := rfl

theorem cacheKeys_length (c : Cache) : (cacheKeys c).length = c.length :=
  List.length_map _ _

theorem lruLookup_eq_none_iff (c : Cache) (p : String) :
    lruLookup c p = none ↔ p ∉ cacheKeys c := by
  induction c with
  | nil => simp [lruLookup, cacheKeys_nil]
  | cons e c ih =>
    rw [cacheKeys_cons]
    unfold lruLookup
    split_ifs with h
    · subst h; simp
    · have hne : ¬p = e.1 := fun hpe => h hpe.symm
      simp [List.mem_cons, hne, ih]

theorem lruLookup_isSome_mem (c : Cache) (p : String) (v : ℚ)
    (h : lruLookup c p = some v) : p ∈ cacheKeys c := by
  by_contra hmem
  rw [← lruLookup_eq_none_iff, h] at hmem
  cases hmem

theorem mem_keys_lruRemove (c : Cache) (p q : String) :
    q ∈ cacheKeys (lruRemove c p) ↔ q ∈ cacheKeys c ∧ q ≠ p := by
  induction c with
  | nil => simp [lruRemove, cacheKeys_nil]
  | cons e c ih =>
    unfold lruRemove
    split_ifs with h
    · rw [ih, cacheKeys_cons]
      subst h
      simp only [List.mem_cons]
      constructor
      · rintro ⟨hq, hne⟩; exact ⟨Or.inr hq, hne⟩
      · rintro ⟨hq | hq, hne⟩
        · exact absurd hq hne
        · exact ⟨hq, hne⟩
    · rw [cacheKeys_cons, cacheKeys_cons, List.mem_cons, List.mem_cons, ih]
      constructor
      · rintro (hq | ⟨hq, hne⟩)
        · exact ⟨Or.inl hq, fun hqp => h (hq ▸ hqp)⟩
        · exact ⟨Or.inr hq, hne⟩
      · rintro ⟨hq | hq, hne⟩
        · exact Or.inl hq
        · exact Or.inr ⟨hq, hne⟩

theorem nodup_keys_lruRemove (c : Cache) (p : String) (h : (cacheKeys c).Nodup) :
    (cacheKeys (lruRemove c p)).Nodup := by
  induction c with
  | nil => simpa [lruRemove] using h
  | cons e c ih =>
    rw [cacheKeys_cons, List.nodup_cons] at h
    unfold lruRemove
    split_ifs with hsplit
    · exact ih h.2
    · rw [cacheKeys_cons, List.nodup_cons]
      exact ⟨fun hmem => h.1 ((mem_keys_lruRemove c p e.1).mp hmem).1, ih h.2⟩

theorem lruRemove_eq_of_not_mem (c : Cache) (p : String) (h : p ∉ cacheKeys c) :
    lruRemove c p = c := by
  induction c with
  | nil => rfl
  | cons e c ih =>
    rw [cacheKeys_cons, List.mem_cons, not_or] at h
    unfold lruRemove
    rw [if_neg (fun he => h.1 he.symm), ih h.2]

theorem length_lruRemove_of_mem (c : Cache) (p : String) (hnd : (cacheKeys c).Nodup)
    (hp : p ∈ cacheKeys c) : (lruRemove c p).length + 1 = c.length := by
  induction c with
  | nil => cases hp
  | cons e c ih =>
    rw [cacheKeys_cons, List.nodup_cons] at hnd
    rw [cacheKeys_cons, List.mem_cons] at hp
    unfold lruRemove
    split_ifs with h
    · subst h
      rw [lruRemove_eq_of_not_mem c e.1 hnd.1]
      simp
    · rcases hp with hp | hp
      · exact absurd hp (fun hq => h hq.symm)
      · have hih := ih hnd.2 hp
        simp only [List.length_cons]
        omega

theorem length_lruRemove_le (c : Cache) (p : String) :
    (lruRemove c p).length ≤ c.length := by
  induction c with
  | nil => simp [lruRemove]
  | cons e c ih =>
    unfold lruRemove
    split_ifs with h
    · exact le_trans ih (Nat.le_succ _)
    · simpa using Nat.succ_le_succ ih

theorem lruInsert_no_evict (c : Cache) (p : String) (v : ℚ)
    (h : c.length ≤ 63 ∨ ((cacheKeys c).Nodup ∧ p ∈ cacheKeys c ∧ c.length ≤ 64)) :
    lruInsert c p v = (p, v) :: lruRemove c p := by
  unfold lruInsert
  apply List.take_of_length_le
  rcases h with h | ⟨hnd, hp, h64⟩
  · have := length_lruRemove_le c p
    simp only [List.length_cons]
    omega
  · have h1 := length_lruRemove_of_mem c p hnd hp
    simp only [List.length_cons]
    omega

theorem keys_length_le (l D : List String) (hnd : l.Nodup) (hsub : ∀ q ∈ l, q ∈ D) :
    l.length ≤ D.length := by
  classical
  have h1 : l.toFinset.card = l.length := List.toFinset_card_of_nodup hnd
  have h2 : l.toFinset ⊆ D.toFinset := by
    intro x hx
    rw [List.mem_toFinset] at hx ⊢
    exact hsub x hx
  calc l.length = l.toFinset.card := h1.symm
    _ ≤ D.toFinset.card := Finset.card_le_card h2
    _ ≤ D.length := D.toFinset_card_le

theorem keys_length_lt (l D : List String) (hnd : l.Nodup) (hsub : ∀ q ∈ l, q ∈ D)
    (p : String) (hpD : p ∈ D) (hpl : p ∉ l) : l.length < D.length := by
  classical
  have h1 : l.toFinset.card = l.length := List.toFinset_card_of_nodup hnd
  have h2 : l.toFinset ⊆ D.toFinset := by
    intro x hx
    rw [List.mem_toFinset] at hx ⊢
    exact hsub x hx
  have h3 : l.toFinset ⊂ D.toFinset := by
    rw [Finset.ssubset_iff_of_subset h2]
    exact ⟨p, List.mem_toFinset.mpr hpD, fun hc => hpl (List.mem_toFinset.mp hc)⟩
  calc l.length = l.toFinset.card := h1.symm
    _ < D.toFinset.card := Finset.card_lt_card h3
    _ ≤ D.length := D.toFinset_card_le

theorem insert_cons_invs (c : Cache) (p1 : String) (v : ℚ) (D : List String)
    (hnd : (cacheKeys c).Nodup) (hsub : ∀ q ∈ cacheKeys c, q ∈ D) (hp1 : p1 ∈ D) :
    (cacheKeys ((p1, v) :: lruRemove c p1)).Nodup ∧
    (∀ q ∈ cacheKeys ((p1, v) :: lruRemove c p1), q ∈ D) ∧
    (∀ q ∈ cacheKeys c, q ∈ cacheKeys ((p1, v) :: lruRemove c p1)) ∧
    p1 ∈ cacheKeys ((p1, v) :: lruRemove c p1) := by
  rw [cacheKeys_cons]
  refine ⟨?_, ?_, ?_, List.mem_cons_self _ _⟩
  · rw [List.nodup_cons]
    exact ⟨fun hmem => ((mem_keys_lruRemove c p1 p1).mp hmem).2 rfl,
      nodup_keys_lruRemove c p1 hnd⟩
  · intro q hq
    rcases List.mem_cons.mp hq with rfl | hq
    · exact hp1
    · exact hsub q ((mem_keys_lruRemove c p1 q).mp hq).1
  · intro q hq
    by_cases hqe : q = p1
    · subst hqe; exact List.mem_cons_self _ _
    · exact List.mem_cons_of_mem _ ((mem_keys_lruRemove c p1 q).mpr ⟨hq, hqe⟩)

theorem durRun_cached_hit (probe : String → Option ℚ) (c : Cache) (p1 : String)
    (rest : List DurCall) (v : ℚ) (h : lruLookup c p1 = some v) :
    durRun probe c (DurCall.cached p1 :: rest) = durRun probe (lruInsert c p1 v) rest := by
  simp only [durRun, h]

theorem durRun_cached_miss (probe : String → Option ℚ) (c : Cache) (p1 : String)
    (rest : List DurCall) (h : lruLookup c p1 = none) :
    durRun probe c (DurCall.cached p1 :: rest) =
      ((durRun probe (lruInsert c p1 ((probe p1).getD 0)) rest).1,
        p1 :: (durRun probe (lruInsert c p1 ((probe p1).getD 0)) rest).2) := by
  simp only [durRun, h]

theorem durRun_uncached_cons (probe : String → Option ℚ) (c : Cache) (p : String)
    (rest : List DurCall) :
    durRun probe c (DurCall.uncached p :: rest) =
      ((durRun probe c rest).1, p :: (durRun probe c rest).2) := by
  simp only [durRun]

theorem durRun_uncached_replicate (probe : String → Option ℚ) (p : String) (n : Nat)
    (c : Cache) :
    (durRun probe c (List.replicate n (DurCall.uncached p))).2 = List.replicate n p := by
  induction n generalizing c with
  | zero => rfl
  | succ n ih =>
    rw [List.replicate_succ, durRun_uncached_cons, List.replicate_succ]
    rw [ih]

/-- Helper: the at-most-once probing induction for the `lru_cache` on
`get_track_duration`.  `D` over-approximates the distinct requested paths; while
it has at most 64 elements and the cache keys stay inside it, no entry of
interest is ever evicted, so a path in the cache is never probed and any path is
probed at most on its first request. -/
theorem durRun_cached_probe_bound (probe : String → Option ℚ) (D : List String)
    (hD : D.Nodup) (hlen : D.length ≤ 64) :
    ∀ (paths : List String) (c : Cache) (p : String),
      (cacheKeys c).Nodup → (∀ q ∈ cacheKeys c, q ∈ D) → (∀ q ∈ paths, q ∈ D) →
      ((p ∈ cacheKeys c → (durRun probe c (paths.map DurCall.cached)).2.count p = 0) ∧
        (durRun probe c (paths.map DurCall.cached)).2.count p ≤ 1) := by
  intro paths
  induction paths with
  | nil =>
    intro c p _ _ _
    constructor
    · intro _; rfl
    · exact Nat.zero_le _
  | cons p1 rest ih =>
    intro c p hnd hsub hpaths
    have hp1D : p1 ∈ D := hpaths p1 (List.mem_cons_self _ _)
    have hrest : ∀ q ∈ rest, q ∈ D := fun q hq => hpaths q (List.mem_cons_of_mem _ hq)
    have hc64 : c.length ≤ 64 := by
      rw [← cacheKeys_length]
      exact le_trans (keys_length_le _ D hnd hsub) hlen
    rw [List.map_cons]
    cases hl : lruLookup c p1 with
    | some v =>
      have hp1mem : p1 ∈ cacheKeys c := lruLookup_isSome_mem c p1 v hl
      have hins := lruInsert_no_evict c p1 v (Or.inr ⟨hnd, hp1mem, hc64⟩)
      have hIV := insert_cons_invs c p1 v D hnd hsub hp1D
      rw [durRun_cached_hit probe c p1 _ v hl, hins]
      constructor
      · intro hp
        exact (ih _ p hIV.1 hIV.2.1 hrest).1 (hIV.2.2.1 p hp)
      · exact (ih _ p hIV.1 hIV.2.1 hrest).2
    | none =>
      have hp1nmem : p1 ∉ cacheKeys c := (lruLookup_eq_none_iff c p1).mp hl
      have hlt : (cacheKeys c).length < D.length :=
        keys_length_lt _ D hnd hsub p1 hp1D hp1nmem
      have hc63 : c.length ≤ 63 := by
        rw [← cacheKeys_length]
        omega
      have hins := lruInsert_no_evict c p1 ((probe p1).getD 0) (Or.inl hc63)
      have hIV := insert_cons_invs c p1 ((probe p1).getD 0) D hnd hsub hp1D
      rw [durRun_cached_miss probe c p1 _ hl, hins]
      constructor
      · intro hp
        have hne : ¬p1 = p := fun he => hp1nmem (he ▸ hp)
        have h0 := (ih _ p hIV.1 hIV.2.1 hrest).1 (hIV.2.2.1 p hp)
        simp only [List.count_cons, h0]
        simp [hne]
      · by_cases hpe : p1 = p
        · subst hpe
          have h0 := (ih _ p1 hIV.1 hIV.2.1 hrest).1 hIV.2.2.2
          simp [List.count_cons, h0]
        · have hle := (ih _ p hIV.1 hIV.2.1 hrest).2
          simpa [List.count_cons, hpe] using hle

/-- C7 counterexample: the probe performed on behalf of `seek` runs through the
uncached `_get_audio_duration`, so two seeks on the same path invoke the
external probing process twice — more than once per distinct path. -/
theorem seek_probe_uncached_counterexample :
    probeCount (fun _ => some 10)
      [DurCall.uncached "track.mp3", DurCall.uncached "track.mp3"] "track.mp3" = 2 := by
  rfl

/-- C7 amended: `get_track_duration` never raises and returns `0.0` on probe
failure; through its 64-entry LRU cache it invokes the external probe at most
once per distinct path as long as at most 64 distinct paths are requested; but
the probe performed on behalf of `seek` goes through the separate, uncached
`_get_audio_duration`, which invokes the probing process on every call and
returns `None` on failure. -/
theorem duration_resolver_amended (probe : String → Option ℚ) :
    (∀ (c : Cache) (p : String), probe p = none → lruLookup c p = none →
      (get_track_duration probe c p).1 = 0) ∧
    (∀ (D paths : List String) (p : String), D.Nodup → D.length ≤ 64 →
      (∀ q ∈ paths, q ∈ D) → probeCount probe (paths.map DurCall.cached) p ≤ 1) ∧
    (∀ (p : String) (n : Nat),
      probeCount probe (List.replicate n (DurCall.uncached p)) p = n) ∧
    (∀ p, get_audio_duration probe p = probe p) := by
  refine ⟨?_, ?_, ?_, fun _ => rfl⟩
  · intro c p hprobe hmiss
    unfold get_track_duration
    rw [hmiss, hprobe]
    rfl
  · intro D paths p hD hlen hsub
    unfold probeCount
    refine (durRun_cached_probe_bound probe D hD hlen paths [] p ?_ ?_ hsub).2
    · rw [cacheKeys_nil]; exact List.nodup_nil
    · intro q hq
      rw [cacheKeys_nil] at hq
      cases hq
  · intro p n
    unfold probeCount
    rw [durRun_uncached_replicate]
    simp

/-- Witness for `duration_resolver_amended`: a failing probe yields `0.0` from a
cold cache, and two cached requests for the same path probe at most once. -/
theorem duration_resolver_amended_witness :
    (get_track_duration (fun _ => none) [] "x.mp3").1 = 0 ∧
    probeCount (fun _ => none) (["x.mp3", "x.mp3"].map DurCall.cached) "x.mp3" ≤ 1 :=
  ⟨(duration_resolver_amended (fun _ => none)).1 [] "x.mp3" rfl rfl,
    (duration_resolver_amended (fun _ => none)).2.1 ["x.mp3"] ["x.mp3", "x.mp3"] "x.mp3"
      (by simp) (by norm_num) (by
        intro q hq
        simpa using hq)⟩

/-! Helper lemmas about the task list and the serialized-regime invariant. -/

theorem get?_modifyIdx (f : PTask → PTask) (l : List PTask) (i j : Nat) :
    (modifyIdx f l i).get? j = if i = j then (l.get? j).map f else l.get? j := by
  induction l generalizing i j with
  | nil =>
    cases i <;> cases j <;> simp [modifyIdx]
  | cons t ts ih =>
    cases i with
    | zero =>
      cases j with
      | zero => simp [modifyIdx]
      | succ m => simp [modifyIdx]
    | succ n =>
      cases j with
      | zero => simp [modifyIdx]
      | succ m =>
        simp only [modifyIdx, List.get?_cons_succ]
        rw [ih n m]
        by_cases h : n = m
        · rw [if_pos h, if_pos (by omega)]
        · rw [if_neg h, if_neg (by omega)]

theorem length_modifyIdx (f : PTask → PTask) (l : List PTask) (i : Nat) :
    (modifyIdx f l i).length = l.length := by
  induction l generalizing i with
  | nil => rfl
  | cons t ts ih =>
    cases i with
    | zero => rfl
    | succ n => simp [modifyIdx, ih]

theorem cancelReq_isTerminal (t : PTask) :
    t.cancelReq.status.isTerminal = t.status.isTerminal := by
  unfold PTask.cancelReq
  cases h : t.status.isTerminal
  · rw [if_neg Bool.false_ne_true]
    rfl
  · rw [if_pos rfl]
    exact h

theorem cancelReq_of_not_terminal (t : PTask) (h : t.status.isTerminal = false) :
    t.cancelReq = { t with status := .cancelRequested } := by
  unfold PTask.cancelReq
  rw [h, if_neg Bool.false_ne_true]

theorem Inv_of_fields (s s' : Sys) (ht : s'.tasks = s.tasks) (hp : s'.pending = s.pending)
    (hpt : s'.play_task = s.play_task) (h : Inv s) : Inv s' := by
  unfold Inv activeIdx at h ⊢
  rw [ht, hp, hpt]
  exact h

theorem inv_modify_at (s : Sys) (i : Nat) (f : PTask → PTask)
    (hf : ∀ t, s.tasks.get? i = some t → (f t).status.isTerminal = false →
      t.status.isTerminal = false)
    (h : Inv s) : Inv { s with tasks := modifyIdx f s.tasks i } := by
  obtain ⟨h1, h2, h3⟩ := h
  have hact : ∀ j, activeIdx { s with tasks := modifyIdx f s.tasks i } j → activeIdx s j := by
    intro j hj
    obtain ⟨t, hget, hterm⟩ := hj
    have hget' : (modifyIdx f s.tasks i).get? j = some t := hget
    rw [get?_modifyIdx] at hget'
    by_cases hij : i = j
    · rw [if_pos hij] at hget'
      subst hij
      cases hg : s.tasks.get? i with
      | none => rw [hg] at hget'; cases hget'
      | some u =>
        rw [hg] at hget'
        simp only [Option.map_some'] at hget'
        obtain rfl := Option.some.inj hget'
        exact ⟨u, hg, hf u hg hterm⟩
    · rw [if_neg hij] at hget'
      exact ⟨t, hget', hterm⟩
  exact ⟨fun a b ha hb => h1 a b (hact a ha) (hact b hb),
    fun a ha => h2 a (hact a ha), h3⟩

theorem activeTask?_reduce (s : Sys) (j : Nat) (h : s.play_task = some j) :
    s.activeTask? =
      match s.tasks.get? j with
      | some t => if t.status.isTerminal then none else some j
      | none => none := by
  unfold Sys.activeTask?
  rw [h]

theorem activeTask?_reduce2 (s : Sys) (j : Nat) (t : PTask) (hpt : s.play_task = some j)
    (hg : s.tasks.get? j = some t) :
    s.activeTask? = if t.status.isTerminal then none else some j := by
  rw [activeTask?_reduce s j hpt, hg]

theorem activeTask?_eq_some (s : Sys) (i : Nat) (h : s.activeTask? = some i) :
    s.play_task = some i ∧ activeIdx s i := by
  cases hpt : s.play_task with
  | none =>
    unfold Sys.activeTask? at h
    rw [hpt] at h
    cases h
  | some j =>
    cases hg : s.tasks.get? j with
    | none =>
      rw [activeTask?_reduce s j hpt, hg] at h
      cases h
    | some t =>
      rw [activeTask?_reduce2 s j t hpt hg] at h
      cases hterm : t.status.isTerminal
      · rw [hterm, if_neg Bool.false_ne_true] at h
        obtain rfl := Option.some.inj h
        exact ⟨rfl, t, hg, hterm⟩
      · rw [hterm, if_pos rfl] at h
        cases h

theorem no_active_of_activeTask?_none (s : Sys) (hI : Inv s) (hp : s.pending = [])
    (h : s.activeTask? = none) : ∀ j, ¬activeIdx s j := by
  intro j hj
  have htr := (hI.2.1 j hj).1 hp
  obtain ⟨t, hg, hterm⟩ := hj
  rw [activeTask?_reduce2 s j t htr hg, hterm, if_neg Bool.false_ne_true] at h
  cases h

theorem activeIdx_launchTask (s : Sys) (k : ResumeKind) (j : Nat)
    (h : activeIdx (launchTask s k) j) : j = s.tasks.length ∨ activeIdx s j := by
  obtain ⟨t, hget, hterm⟩ := h
  have hget' : (s.tasks ++ [(⟨launchSpecOf s.mgr k, .created, none, 0⟩ : PTask)]).get? j
      = some t := hget
  by_cases hj : j < s.tasks.length
  · rw [List.get?_append hj] at hget'
    exact Or.inr ⟨t, hget', hterm⟩
  · left
    by_cases hje : j = s.tasks.length
    · exact hje
    · exfalso
      rw [List.get?_append_right (Nat.le_of_not_lt hj)] at hget'
      rw [List.get?_eq_none.mpr (by simp; omega)] at hget'
      cases hget'

theorem inv_launchTask (s : Sys) (k : ResumeKind)
    (hact : ∀ j, ¬activeIdx s j) (hp : s.pending = []) : Inv (launchTask s k) := by
  have hnew : ∀ j, activeIdx (launchTask s k) j → j = s.tasks.length := by
    intro j hj
    rcases activeIdx_launchTask s k j hj with h | h
    · exact h
    · exact absurd h (hact j)
  refine ⟨fun a b ha hb => by rw [hnew a ha, hnew b hb], ?_, ?_⟩
  · intro a ha
    constructor
    · intro _
      rw [hnew a ha]
      rfl
    · intro c rest hc
      have hc' : s.pending = c :: rest := hc
      rw [hp] at hc'
      cases hc'
  · show s.pending.length ≤ 1
    rw [hp]
    simp

theorem inv_replaceActive (s : Sys) (k : ResumeKind) (hI : Inv s) (hp : s.pending = []) :
    Inv (replaceActive s k) := by
  unfold replaceActive
  cases ha : s.activeTask? with
  | none => exact inv_launchTask s k (no_active_of_activeTask?_none s hI hp ha) hp
  | some i =>
    obtain ⟨hpt, hacti⟩ := activeTask?_eq_some s i ha
    obtain ⟨h1, h2, h3⟩ := hI
    have hto : ∀ j, activeIdx ({ s with
        tasks := modifyIdx PTask.cancelReq s.tasks i
        pending := ⟨k, i⟩ :: s.pending }) j → activeIdx s j := by
      rintro j ⟨t, hget, hterm⟩
      have hget' : (modifyIdx PTask.cancelReq s.tasks i).get? j = some t := hget
      rw [get?_modifyIdx] at hget'
      by_cases hij : i = j
      · rw [if_pos hij] at hget'
        subst hij
        cases hg : s.tasks.get? i with
        | none => rw [hg] at hget'; cases hget'
        | some u =>
          rw [hg] at hget'
          simp only [Option.map_some'] at hget'
          obtain rfl := Option.some.inj hget'
          rw [cancelReq_isTerminal] at hterm
          exact ⟨u, hg, hterm⟩
      · rw [if_neg hij] at hget'
        exact ⟨t, hget', hterm⟩
    refine ⟨fun a b ha' hb' => h1 a b (hto a ha') (hto b hb'), ?_, ?_⟩
    · intro a ha'
      have haS := hto a ha'
      have hai : a = i := h1 a i haS hacti
      subst hai
      constructor
      · intro hps
        exact absurd hps (List.cons_ne_nil _ _)
      · intro c rest hc
        have hc' : (⟨k, a⟩ : PendingLaunch) :: s.pending = c :: rest := hc
        cases hc'
        rfl
    · show ((⟨k, i⟩ : PendingLaunch) :: s.pending).length ≤ 1
      rw [hp]
      simp

theorem cancelActive_none (s : Sys) (h : s.play_task = none) : cancelActive s = s := by
  unfold cancelActive
  rw [h]

theorem cancelActive_some (s : Sys) (i : Nat) (h : s.play_task = some i) :
    cancelActive s = { s with tasks := modifyIdx PTask.cancelReq s.tasks i } := by
  unfold cancelActive
  rw [h]

theorem inv_cancelActive (s : Sys) (hI : Inv s) : Inv (cancelActive s) := by
  cases hpt : s.play_task with
  | none => rw [cancelActive_none s hpt]; exact hI
  | some i =>
    rw [cancelActive_some s i hpt]
    exact inv_modify_at s i PTask.cancelReq
      (fun t _ h => by rwa [cancelReq_isTerminal] at h) hI

theorem inv_postSource (s : Sys) (i : Nat)
    (hf : ∀ u, s.tasks.get? i = some u → u.status.isTerminal = false)
    (hI : Inv s) : Inv (postSource s i) := by
  unfold postSource
  split_ifs with h
  · apply Inv_of_fields
      { s with tasks := modifyIdx (fun t =>
        { t with
          spec := { t.spec with seek_seconds := 0, fade_in := 0 },
          status := .created,
          loopRelaunches := t.loopRelaunches + 1 }) s.tasks i } _ rfl rfl rfl
    exact inv_modify_at s i _ (fun u hu _ => hf u hu) hI
  · apply Inv_of_fields
      { s with tasks := modifyIdx (fun t =>
        { t with
          spec := { t.spec with seek_seconds := 0, fade_in := 0 },
          status := .completed }) s.tasks i } _ rfl rfl rfl
    exact inv_modify_at s i _ (fun u hu _ => hf u hu) hI

theorem inv_clearTrack (s : Sys) (hI : Inv s) : Inv (clearTrack s) :=
  Inv_of_fields s _ rfl rfl rfl hI

/-! Each operation and task event preserves the invariant; the five launching
operations additionally require that no other operation is suspended. -/

theorem inv_play (s : Sys) (p : Option String) (c : Category) (fi fo : ℚ)
    (hI : Inv s) (hp : s.pending = []) : Inv (play s p c fi fo) := by
  unfold play
  split_ifs with h
  · exact hI
  · exact inv_replaceActive _ _ (Inv_of_fields s _ rfl rfl rfl hI) hp

theorem seek_track_none (env : Env) (s : Sys) (pos : ℚ)
    (h : s.mgr.current_track = none) : seek env s pos = s := by
  unfold seek
  rw [h]

theorem seek_track_some (env : Env) (s : Sys) (pos : ℚ) (tr : String)
    (h : s.mgr.current_track = some tr) :
    seek env s pos = if env.fileExists tr = false then s
      else replaceActive s (.seek (seekClampPos (env.probeSeek tr) pos)) := by
  unfold seek
  rw [h]

theorem inv_seek (env : Env) (s : Sys) (pos : ℚ) (hI : Inv s) (hp : s.pending = []) :
    Inv (seek env s pos) := by
  cases htr : s.mgr.current_track with
  | none => rw [seek_track_none env s pos htr]; exact hI
  | some tr =>
    rw [seek_track_some env s pos tr htr]
    split_ifs with h
    · exact hI
    · exact inv_replaceActive s _ hI hp

theorem fade_out_track_none (env : Env) (s : Sys) (now req : ℚ)
    (h : s.mgr.current_track = none) : fade_out env s now req = s := by
  unfold fade_out
  rw [h]

theorem fade_out_track_some (env : Env) (s : Sys) (now req : ℚ) (tr : String)
    (h : s.mgr.current_track = some tr) :
    fade_out env s now req =
      if env.fileExists tr = false then s
      else if s.mgr.voicePlaying = false then s
      else if max (env.duration tr - (get_current_position now s.mgr).getD 0) 0 ≤ 0 then s
      else
        replaceActive s
          (.fade ((get_current_position now s.mgr).getD 0)
            (min req (max (env.duration tr - (get_current_position now s.mgr).getD 0) 0))) := by
  unfold fade_out
  rw [h]

theorem inv_fade_out (env : Env) (s : Sys) (now req : ℚ) (hI : Inv s)
    (hp : s.pending = []) : Inv (fade_out env s now req) := by
  cases htr : s.mgr.current_track with
  | none => rw [fade_out_track_none env s now req htr]; exact hI
  | some tr =>
    rw [fade_out_track_some env s now req tr htr]
    split_ifs with h1 h2 h3
    · exact hI
    · exact hI
    · exact hI
    · exact inv_replaceActive s _ hI hp

theorem restart_track_none (env : Env) (s : Sys) (fd : ℚ)
    (h : s.mgr.current_track = none) : restart_with_fade_in env s fd = s := by
  unfold restart_with_fade_in
  rw [h]

theorem restart_track_some (env : Env) (s : Sys) (fd : ℚ) (tr : String)
    (h : s.mgr.current_track = some tr) :
    restart_with_fade_in env s fd =
      if env.fileExists tr = false then s else replaceActive s (.restart fd) := by
  unfold restart_with_fade_in
  rw [h]

theorem inv_restart (env : Env) (s : Sys) (fd : ℚ) (hI : Inv s) (hp : s.pending = []) :
    Inv (restart_with_fade_in env s fd) := by
  cases htr : s.mgr.current_track with
  | none => rw [restart_track_none env s fd htr]; exact hI
  | some tr =>
    rw [restart_track_some env s fd tr htr]
    split_ifs with h
    · exact hI
    · exact inv_replaceActive s _ hI hp

theorem inv_stop (s : Sys) (hI : Inv s) : Inv (stop s) := by
  unfold stop
  apply inv_clearTrack
  apply inv_cancelActive
  split_ifs with h
  · exact Inv_of_fields s _ rfl rfl rfl hI
  · exact hI

theorem inv_set_loop (s : Sys) (c : Category) (b : Bool) (hI : Inv s) :
    Inv (set_loop s c b) := by
  unfold set_loop
  split_ifs with h
  · exact inv_cancelActive _ (Inv_of_fields s _ rfl rfl rfl hI)
  · exact Inv_of_fields s _ rfl rfl rfl hI

theorem inv_set_volume (s : Sys) (c : Category) (v : ℚ) (hI : Inv s) :
    Inv (set_volume s c v) := by
  unfold set_volume
  split_ifs with h
  · exact Inv_of_fields s _ rfl rfl rfl hI
  · exact Inv_of_fields s _ rfl rfl rfl hI

theorem inv_pause (s : Sys) (hI : Inv s) : Inv (pause s) := by
  unfold pause
  split_ifs with h
  · exact Inv_of_fields s _ rfl rfl rfl hI
  · exact hI

theorem inv_resume (s : Sys) (hI : Inv s) : Inv (resume s) := by
  unfold resume
  split_ifs with h
  · exact Inv_of_fields s _ rfl rfl rfl hI
  · exact hI

theorem spawned_start_eq (s : Sys) (k : Nat) (pc : Option String × Category)
    (hc : s.spawned.get? k = some pc) :
    spawned_start s k = some (play { s with spawned := s.spawned.eraseIdx k } pc.1 pc.2 0 0) := by
  unfold spawned_start
  rw [hc]

theorem inv_spawned_start (s : Sys) (k : Nat) (s' : Sys) (hI : Inv s)
    (hp : s.pending = []) (h : spawned_start s k = some s') : Inv s' := by
  cases hc : s.spawned.get? k with
  | none =>
    unfold spawned_start at h
    rw [hc] at h
    cases h
  | some pc =>
    rw [spawned_start_eq s k pc hc] at h
    obtain rfl := Option.some.inj h
    exact inv_play _ pc.1 pc.2 0 0 (Inv_of_fields s _ rfl rfl rfl hI) hp

theorem play_resume_aux_eq (s : Sys) (k : Nat) (c : PendingLaunch) (t : PTask)
    (hg : s.tasks.get? c.awaiting = some t) :
    play_resume_aux s k c =
      if t.status.isTerminal then
        some (launchTask { s with pending := s.pending.eraseIdx k } c.kind)
      else none := by
  unfold play_resume_aux
  rw [hg]

theorem play_resume_eq (s : Sys) (k : Nat) (c : PendingLaunch)
    (hc : s.pending.get? k = some c) : play_resume s k = play_resume_aux s k c := by
  unfold play_resume
  rw [hc]

theorem inv_play_resume (s : Sys) (k : Nat) (s' : Sys) (hI : Inv s)
    (h : play_resume s k = some s') : Inv s' := by
  cases hc : s.pending.get? k with
  | none =>
    unfold play_resume at h
    rw [hc] at h
    cases h
  | some c =>
    rw [play_resume_eq s k c hc] at h
    cases hg : s.tasks.get? c.awaiting with
    | none =>
      unfold play_resume_aux at h
      rw [hg] at h
      cases h
    | some t =>
      rw [play_resume_aux_eq s k c t hg] at h
      cases hterm : t.status.isTerminal
      · rw [hterm, if_neg Bool.false_ne_true] at h
        cases h
      · rw [hterm, if_pos rfl] at h
        obtain rfl := Option.some.inj h
        have hklt : ¬s.pending.length ≤ k := by
          intro hle
          rw [List.get?_eq_none.mpr hle] at hc
          cases hc
        have hlen := hI.2.2
        have hk0 : k = 0 := by omega
        subst hk0
        obtain ⟨c0, hpend⟩ : ∃ c0, s.pending = [c0] := by
          cases hp : s.pending with
          | nil => rw [hp] at hklt; simp at hklt
          | cons c1 rest =>
            rw [hp] at hlen
            simp only [List.length_cons] at hlen
            have hr : rest = [] := List.length_eq_zero.mp (by omega)
            exact ⟨c1, by rw [hr]⟩
        have hc0 : c0 = c := by
          rw [hpend] at hc
          have hc' : some c0 = some c := hc
          exact Option.some.inj hc'
        subst hc0
        have hact : ∀ j, ¬activeIdx s j := by
          intro j hj
          have hji := (hI.2.1 j hj).2 c0 [] hpend
          subst hji
          obtain ⟨u, hu, hutm⟩ := hj
          rw [hg] at hu
          obtain rfl := Option.some.inj hu
          rw [hterm] at hutm
          cases hutm
        apply inv_launchTask
        · intro j hj
          exact hact j hj
        · show s.pending.eraseIdx 0 = []
          rw [hpend]
          rfl

theorem task_begin_eq (env : Env) (s : Sys) (i : Nat) (now : ℚ) (t : PTask)
    (hg : s.tasks.get? i = some t) :
    task_begin env s i now = task_begin_guard env s i now t := by
  unfold task_begin
  rw [hg]

theorem task_begin_run_path_none (env : Env) (s : Sys) (i : Nat) (now : ℚ) (t : PTask)
    (h : t.spec.path = none) :
    task_begin_run env s i now t =
      { s with tasks := modifyIdx (fun u => { u with status := .completed }) s.tasks i } := by
  unfold task_begin_run
  rw [h]

theorem task_begin_run_path_some (env : Env) (s : Sys) (i : Nat) (now : ℚ) (t : PTask)
    (p : String) (h : t.spec.path = some p) :
    task_begin_run env s i now t =
      if s.mgr.voiceConnected = false then postSource s i
      else if env.fileExists p = false then postSource s i
      else
        { s with
          mgr := { (s.mgr.setPlaying true) with
            start_time := some now,
            start_seek_offset :=
              (playSourceSpec (env.duration p) (volOf s.mgr) t.spec.seek_seconds
                t.spec.fade_in t.spec.fade_out).beforeSeek },
          tasks := modifyIdx (fun u =>
            { u with
              status := .playing
              source := some (playSourceSpec (env.duration p) (volOf s.mgr)
                t.spec.seek_seconds t.spec.fade_in t.spec.fade_out) }) s.tasks i,
          lock_held_by := some i } := by
  unfold task_begin_run
  rw [h]

theorem inv_task_begin (env : Env) (s : Sys) (i : Nat) (now : ℚ) (s' : Sys)
    (hI : Inv s) (h : task_begin env s i now = some s') : Inv s' := by
  cases hg : s.tasks.get? i with
  | none =>
    unfold task_begin at h
    rw [hg] at h
    cases h
  | some t =>
    rw [task_begin_eq env s i now t hg] at h
    unfold task_begin_guard at h
    by_cases h1 : ¬t.status = TaskStatus.created
    · rw [if_pos h1] at h
      cases h
    · rw [if_neg h1] at h
      by_cases h2 : ¬s.lock_held_by = none
      · rw [if_pos h2] at h
        cases h
      · rw [if_neg h2] at h
        obtain rfl := Option.some.inj h
        push_neg at h1
        have hstatus : ∀ u, s.tasks.get? i = some u → u.status.isTerminal = false := by
          intro u hu
          rw [hg] at hu
          obtain rfl := Option.some.inj hu
          rw [h1]
          rfl
        cases hpath : t.spec.path with
        | none =>
          rw [task_begin_run_path_none env s i now t hpath]
          exact inv_modify_at s i _
            (fun u hu hterm => by simp [TaskStatus.isTerminal] at hterm) hI
        | some p =>
          rw [task_begin_run_path_some env s i now t p hpath]
          split_ifs with hv hf
          · exact inv_postSource s i hstatus hI
          · exact inv_postSource s i hstatus hI
          · apply Inv_of_fields
              ({ s with tasks := modifyIdx (fun u =>
                { u with
                  status := .playing
                  source := some (playSourceSpec (env.duration p) (volOf s.mgr)
                    t.spec.seek_seconds t.spec.fade_in t.spec.fade_out) }) s.tasks i })
              _ rfl rfl rfl
            exact inv_modify_at s i _ (fun u hu _ => hstatus u hu) hI

theorem task_natural_eq (s : Sys) (i : Nat) (t : PTask) (hg : s.tasks.get? i = some t) :
    task_natural_complete s i =
      if t.status = .playing ∧ s.lock_held_by = some i then
        some (postSource { s with mgr := s.mgr.setPlaying false } i)
      else none := by
  unfold task_natural_complete
  rw [hg]

theorem inv_task_natural (s : Sys) (i : Nat) (s' : Sys) (hI : Inv s)
    (h : task_natural_complete s i = some s') : Inv s' := by
  cases hg : s.tasks.get? i with
  | none =>
    unfold task_natural_complete at h
    rw [hg] at h
    cases h
  | some t =>
    rw [task_natural_eq s i t hg] at h
    by_cases hcond : t.status = TaskStatus.playing ∧ s.lock_held_by = some i
    · rw [if_pos hcond] at h
      obtain rfl := Option.some.inj h
      refine inv_postSource _ i ?_ (Inv_of_fields s _ rfl rfl rfl hI)
      intro u hu
      have hu' : s.tasks.get? i = some u := hu
      rw [hg] at hu'
      obtain rfl := Option.some.inj hu'
      rw [hcond.1]
      rfl
    · rw [if_neg hcond] at h
      cases h

theorem task_cancel_finish_eq (s : Sys) (i : Nat) (t : PTask)
    (hg : s.tasks.get? i = some t) :
    task_cancel_finish s i =
      if t.status = .cancelRequested then
        some { s with
          tasks := modifyIdx (fun u => { u with status := .cancelled }) s.tasks i,
          lock_held_by := if s.lock_held_by = some i then none else s.lock_held_by }
      else none := by
  unfold task_cancel_finish
  rw [hg]

theorem inv_task_cancel_finish (s : Sys) (i : Nat) (s' : Sys) (hI : Inv s)
    (h : task_cancel_finish s i = some s') : Inv s' := by
  cases hg : s.tasks.get? i with
  | none =>
    unfold task_cancel_finish at h
    rw [hg] at h
    cases h
  | some t =>
    rw [task_cancel_finish_eq s i t hg] at h
    by_cases hcond : t.status = TaskStatus.cancelRequested
    · rw [if_pos hcond] at h
      obtain rfl := Option.some.inj h
      apply Inv_of_fields
        ({ s with tasks := modifyIdx (fun u => { u with status := .cancelled }) s.tasks i })
        _ rfl rfl rfl
      exact inv_modify_at s i _
        (fun u hu hterm => by simp [TaskStatus.isTerminal] at hterm) hI
    · rw [if_neg hcond] at h
      cases h

theorem inv_step (env : Env) (s : Sys) (e : Ev) (s' : Sys) (hI : Inv s)
    (hser : isLaunchOp e = true → s.pending = []) (h : step env s e = some s') : Inv s' := by
  cases e with
  | playStart p c fi fo =>
    obtain rfl := Option.some.inj h
    exact inv_play s p c fi fo hI (hser rfl)
  | seekStart pos =>
    obtain rfl := Option.some.inj h
    exact inv_seek env s pos hI (hser rfl)
  | fadeOutStart now req =>
    obtain rfl := Option.some.inj h
    exact inv_fade_out env s now req hI (hser rfl)
  | restartStart fd =>
    obtain rfl := Option.some.inj h
    exact inv_restart env s fd hI (hser rfl)
  | stopStep =>
    obtain rfl := Option.some.inj h
    exact inv_stop s hI
  | setLoopStep c b =>
    obtain rfl := Option.some.inj h
    exact inv_set_loop s c b hI
  | setVolumeStep c v =>
    obtain rfl := Option.some.inj h
    exact inv_set_volume s c v hI
  | pauseStep =>
    obtain rfl := Option.some.inj h
    exact inv_pause s hI
  | resumeStep =>
    obtain rfl := Option.some.inj h
    exact inv_resume s hI
  | spawnedStart k => exact inv_spawned_start s k s' hI (hser rfl) h
  | playResume k => exact inv_play_resume s k s' hI h
  | taskBegin i now => exact inv_task_begin env s i now s' hI h
  | taskNatural i => exact inv_task_natural s i s' hI h
  | taskCancelFinish i => exact inv_task_cancel_finish s i s' hI h

theorem inv_runTrace (env : Env) : ∀ (evs : List Ev) (s s' : Sys), Inv s →
    serialOK env s evs = true → runTrace env s evs = some s' → Inv s' := by
  intro evs
  induction evs with
  | nil =>
    intro s s' hI _ h
    obtain rfl := Option.some.inj h
    exact hI
  | cons e rest ih =>
    intro s s' hI hser hrun
    unfold serialOK at hser
    unfold runTrace at hrun
    cases hstep : step env s e with
    | none => rw [hstep] at hrun; cases hrun
    | some s1 =>
      rw [hstep] at hrun hser
      rw [Bool.and_eq_true] at hser
      have hpend : isLaunchOp e = true → s.pending = [] := by
        intro hop
        have h1 := hser.1
        rw [hop] at h1
        simp only [Bool.not_true, Bool.false_or] at h1
        exact List.isEmpty_iff.mp h1
      exact ih s1 s' (inv_step env s e s1 hI hpend hstep) hser.2 hrun

theorem inv_initSys (voice : Option Voice) : Inv (initSys voice) := by
  refine ⟨?_, ?_, ?_⟩
  · rintro i j ⟨t, hget, -⟩ -
    have hget' : ([] : List PTask).get? i = some t := hget
    rw [List.get?_nil] at hget'
    cases hget'
  · rintro i ⟨t, hget, -⟩
    have hget' : ([] : List PTask).get? i = some t := hget
    rw [List.get?_nil] at hget'
    cases hget'
  · show ([] : List PendingLaunch).length ≤ 1
    simp

theorem filter_length_le_one (l : List PTask)
    (h : ∀ i j ti tj, l.get? i = some ti → l.get? j = some tj →
      ti.status.isTerminal = false → tj.status.isTerminal = false → i = j) :
    (l.filter fun t => !t.status.isTerminal).length ≤ 1 := by
  induction l with
  | nil => simp
  | cons t ts ih =>
    cases hp : t.status.isTerminal
    · rw [List.filter_cons_of_pos (by rw [hp]; rfl)]
      have hts : ts.filter (fun t => !t.status.isTerminal) = [] := by
        rw [List.filter_eq_nil]
        intro u hu
        obtain ⟨n, hn⟩ := List.get?_of_mem hu
        cases hu' : u.status.isTerminal
        · exact absurd (h 0 (n + 1) t u rfl (by simpa using hn) hp hu') (by omega)
        · simp
      rw [hts]
      simp
    · rw [List.filter_cons_of_neg (by rw [hp]; simp)]
      apply ih
      intro i j ti tj hi hj h1 h2
      have := h (i + 1) (j + 1) ti tj (by simpa using hi) (by simpa using hj) h1 h2
      omega

theorem activeCount_le_one_of_uniq (s : Sys)
    (h : ∀ i j, activeIdx s i → activeIdx s j → i = j) : activeCount s ≤ 1 := by
  unfold activeCount
  apply filter_length_le_one
  intro i j ti tj hi hj h1 h2
  exact h i j ⟨ti, hi, h1⟩ ⟨tj, hj, h2⟩

/-- C1 counterexample: the at-most-one-non-terminal-task invariant fails when
task-replacing operations overlap.  From a fresh manager, `play("a.mp3")`
launches task 0; `play("b.mp3")` and a further `play("c.mp3")` both observe the
same unfinished task 0, cancel it and suspend at `await self._play_task`; when
task 0 unwinds, both suspended coroutines resume and each launches its own task
(audio.py lines 80-89 make cancel-await and launch non-atomic), leaving two
non-terminal playback tasks attached to the same voice connection. -/
theorem two_active_tasks_counterexample :
    (runTrace env0 (initSys (some voiceOn)) raceEvs).map activeCount = some 2 := by
  rfl

/-- C1 amended: each individual task-replacing transition cancels and awaits the
previous task before launching, so under any schedule in which no launching
operation starts while another is suspended awaiting cancellation, at most one
non-terminal playback task is attached to the voice connection at any instant
(overlapping operations can violate this, see the counterexample). -/
theorem serialized_at_most_one_active_task (env : Env) (voice : Option Voice)
    (evs : List Ev) (s' : Sys)
    (hser : serialOK env (initSys voice) evs = true)
    (hrun : runTrace env (initSys voice) evs = some s') :
    activeCount s' ≤ 1 :=
  activeCount_le_one_of_uniq s'
    (inv_runTrace env evs (initSys voice) s' (inv_initSys voice) hser hrun).1

/-- Witness for `serialized_at_most_one_active_task` on a concrete serialized
double-play schedule. -/
theorem serialized_at_most_one_active_task_witness : activeCount serialFinal ≤ 1 :=
  serialized_at_most_one_active_task env0 (some voiceOn) serialEvs serialFinal rfl rfl

/-- C2: when an unfinished task exists, `play(path2, category2)` cancels it and
suspends awaiting its termination without yet creating the new task (the launch
happens only at resume, i.e. after termination); and in the concrete
`play("a.mp3","music")` then `play("b.mp3","music")` scenario exactly one task
ends up non-terminal, bound to `"b.mp3"`, while the task for `"a.mp3"` ends
`Cancelled` having never executed the natural-completion/loop logic. -/
theorem play_cancels_and_awaits_before_launch (s : Sys) (i : Nat) (t : PTask)
    (p2 : String) (c2 : Category) (fi fo : ℚ)
    (hconn : s.mgr.voiceConnected = true) (hpt : s.play_task = some i)
    (ht : s.tasks.get? i = some t) (hnt : t.status.isTerminal = false) :
    ((play s (some p2) c2 fi fo).tasks.length = s.tasks.length ∧
      (play s (some p2) c2 fi fo).tasks.get? i = some { t with status := .cancelRequested } ∧
      (play s (some p2) c2 fi fo).pending =
        ⟨.play (some p2) (resolveFades (s.mgr.fade_config c2) fi fo).1
          (resolveFades (s.mgr.fade_config c2) fi fo).2, i⟩ :: s.pending) ∧
    (runTrace env0 (initSys (some voiceOn)) doublePlayEvs).map
        (fun w => (activeCount w, w.tasks.map fun u => (u.spec.path, u.status, u.loopRelaunches)))
      = some (1, [(some "a.mp3", .cancelled, 0), (some "b.mp3", .created, 0)]) := by
  constructor
  · unfold play
    rw [hconn, if_neg (by simp)]
    have ha : ({ s with mgr := { s.mgr with
        current_track := some p2, current_type := some c2 } } : Sys).activeTask? = some i := by
      show s.activeTask? = some i
      rw [activeTask?_reduce2 s i t hpt ht, hnt, if_neg Bool.false_ne_true]
    unfold replaceActive
    rw [ha]
    refine ⟨?_, ?_, rfl⟩
    · show (modifyIdx PTask.cancelReq s.tasks i).length = s.tasks.length
      exact length_modifyIdx _ _ _
    · show (modifyIdx PTask.cancelReq s.tasks i).get? i = _
      rw [get?_modifyIdx, if_pos rfl, ht]
      simp only [Option.map_some']
      rw [cancelReq_of_not_terminal t hnt]
  · rfl

/-- Witness for `play_cancels_and_awaits_before_launch` at a state with one
freshly created task for `"a.mp3"`. -/
theorem play_cancels_and_awaits_before_launch_witness :
    (play sysOneTask (some "b.mp3") Category.music 0 0).tasks.length
      = sysOneTask.tasks.length ∧
    (play sysOneTask (some "b.mp3") Category.music 0 0).tasks.get? 0 =
      some ⟨⟨some "a.mp3", 0, 0, 5⟩, .cancelRequested, none, 0⟩ :=
  ⟨(play_cancels_and_awaits_before_launch sysOneTask 0
      ⟨⟨some "a.mp3", 0, 0, 5⟩, .created, none, 0⟩ "b.mp3" Category.music 0 0
      rfl rfl rfl rfl).1.1,
   (play_cancels_and_awaits_before_launch sysOneTask 0
      ⟨⟨some "a.mp3", 0, 0, 5⟩, .created, none, 0⟩ "b.mp3" Category.music 0 0
      rfl rfl rfl rfl).1.2.1⟩

/-- Helper: stopping or starting the voice client leaves its connectedness
unchanged. -/
theorem setPlaying_connected (m : AudioSourceManager) (b : Bool) :
    ((m.setPlaying b).voice.map Voice.connected) = m.voice.map Voice.connected := by
  unfold AudioSourceManager.setPlaying
  cases m.voice <;> rfl

/-- C3: when a task's `_play_source` completes naturally (no cancellation), the
loop handler consults the loop flag of the current category: if true, the next
iteration reruns the same path with `seek_seconds = 0` and `fade_in = 0`
regardless of the original launch values (the per-launch fade-out is kept, the
relaunch count grows); if false, the loop breaks — the task completes, nothing
new is launched, and the voice connection's connectedness is untouched (the old
auto-disconnect is commented out at audio.py lines 106-109). -/
theorem loop_handler_spec (s : Sys) (i : Nat) (t : PTask)
    (ht : s.tasks.get? i = some t) (hpl : t.status = TaskStatus.playing)
    (hlock : s.lock_held_by = some i) :
    task_natural_complete s i =
      some (postSource { s with mgr := s.mgr.setPlaying false } i) ∧
    (loopFlagOf s.mgr = true →
      (postSource { s with mgr := s.mgr.setPlaying false } i).tasks.get? i =
        some { t with
          spec := { t.spec with seek_seconds := 0, fade_in := 0 },
          status := .created,
          loopRelaunches := t.loopRelaunches + 1 } ∧
      (postSource { s with mgr := s.mgr.setPlaying false } i).tasks.length
        = s.tasks.length) ∧
    (loopFlagOf s.mgr = false →
      (postSource { s with mgr := s.mgr.setPlaying false } i).tasks.get? i =
        some { t with
          spec := { t.spec with seek_seconds := 0, fade_in := 0 },
          status := .completed } ∧
      (postSource { s with mgr := s.mgr.setPlaying false } i).tasks.length
        = s.tasks.length ∧
      (postSource { s with mgr := s.mgr.setPlaying false } i).play_task = s.play_task ∧
      ((postSource { s with mgr := s.mgr.setPlaying false } i).mgr.voice.map Voice.connected)
        = s.mgr.voice.map Voice.connected) := by
  refine ⟨?_, ?_, ?_⟩
  · rw [task_natural_eq s i t ht, if_pos ⟨hpl, hlock⟩]
  · intro hflag
    have hflag' : loopFlagOf ({ s with mgr := s.mgr.setPlaying false } : Sys).mgr = true := hflag
    unfold postSource
    rw [hflag', if_pos rfl]
    constructor
    · show (modifyIdx _ s.tasks i).get? i = _
      rw [get?_modifyIdx, if_pos rfl, ht]
      rfl
    · exact length_modifyIdx _ _ _
  · intro hflag
    have hflag' : loopFlagOf ({ s with mgr := s.mgr.setPlaying false } : Sys).mgr = false :=
      hflag
    unfold postSource
    rw [hflag', if_neg Bool.false_ne_true]
    refine ⟨?_, length_modifyIdx _ _ _, rfl, setPlaying_connected s.mgr false⟩
    show (modifyIdx _ s.tasks i).get? i = _
    rw [get?_modifyIdx, if_pos rfl, ht]
    rfl

/-- Witness for `loop_handler_spec` on the playing state (music loop flag is
false, so the task completes with no relaunch). -/
theorem loop_handler_spec_witness :
    task_natural_complete sysPlaying 0 =
      some (postSource { sysPlaying with mgr := sysPlaying.mgr.setPlaying false } 0) ∧
    (postSource { sysPlaying with mgr := sysPlaying.mgr.setPlaying false } 0).tasks.get? 0 =
      some ⟨⟨some "a.mp3", 0, 0, 0⟩, .completed, some (playSourceSpec 100 1 0 0 0), 0⟩ :=
  ⟨(loop_handler_spec sysPlaying 0 ⟨⟨some "a.mp3", 0, 0, 0⟩, TaskStatus.playing,
      some (playSourceSpec 100 1 0 0 0), 0⟩ rfl rfl rfl).1,
   ((loop_handler_spec sysPlaying 0 ⟨⟨some "a.mp3", 0, 0, 0⟩, TaskStatus.playing,
      some (playSourceSpec 100 1 0 0 0), 0⟩ rfl rfl rfl).2.2 rfl).1⟩

/-- C5 counterexample: `fade_out` is also a silent no-op in a state where a
current track exists and the voice client is actively playing, namely when the
computed remaining time is not positive — here the duration probe failed
(`get_track_duration` returned `0.0`), so `remaining = max(0 - 5, 0) = 0` and
the guard at audio.py lines 288-290 returns without replacing any task, although
the claim requires a relaunch in every playing state. -/
theorem fade_out_noop_counterexample :
    fade_out envProbeFail sysPlaying 15 5 = sysPlaying ∧
    sysPlaying.mgr.current_track = some "a.mp3" ∧
    sysPlaying.mgr.voicePlaying = true ∧
    (fade_out envProbeFail sysPlaying 15 5).tasks.length = sysPlaying.tasks.length := by
  have h1 : fade_out envProbeFail sysPlaying 15 5 = sysPlaying := by
    rw [fade_out_track_some envProbeFail sysPlaying 15 5 "a.mp3" rfl,
      if_neg (by decide), if_neg (by decide),
      if_pos (by norm_num [envProbeFail, sysPlaying, initMgr, get_current_position])]
  exact ⟨h1, rfl, rfl, by rw [h1]⟩

/-- C5 amended: with a current track whose file exists and audio actively
streaming, `fade_out(req)` computes the elapsed position from the start mark and
offset and `remaining = max(duration - pos, 0)`; when `remaining ≤ 0` it is a
silent no-op, and otherwise it replaces the pipeline at `seek_seconds = pos`
with `fade_in = 0` and fade-out duration `min(req, remaining)` — launching at
once when no task is unfinished, else cancelling the task and suspending with
exactly that launch recorded. -/
theorem fade_out_amended (env : Env) (s : Sys) (tr : String) (now req pos rem : ℚ)
    (htr : s.mgr.current_track = some tr) (hf : env.fileExists tr = true)
    (hp : s.mgr.voicePlaying = true)
    (hpos : pos = (get_current_position now s.mgr).getD 0)
    (hrem : rem = max (env.duration tr - pos) 0) :
    (rem ≤ 0 → fade_out env s now req = s) ∧
    (0 < rem → s.activeTask? = none →
      (fade_out env s now req).tasks =
        s.tasks ++ [(⟨⟨some tr, pos, 0, min req rem⟩, .created, none, 0⟩ : PTask)] ∧
      (fade_out env s now req).play_task = some s.tasks.length ∧
      (fade_out env s now req).pending = s.pending) ∧
    (∀ i, 0 < rem → s.activeTask? = some i →
      (fade_out env s now req).tasks = modifyIdx PTask.cancelReq s.tasks i ∧
      (fade_out env s now req).pending =
        ⟨.fade pos (min req rem), i⟩ :: s.pending) := by
  subst hpos
  subst hrem
  rw [fade_out_track_some env s now req tr htr, hf, hp, if_neg (by simp),
    if_neg (by simp)]
  refine ⟨?_, ?_, ?_⟩
  · intro hle
    rw [if_pos hle]
  · intro hlt hnone
    rw [if_neg (not_le.mpr hlt)]
    unfold replaceActive
    rw [hnone]
    refine ⟨?_, rfl, rfl⟩
    show s.tasks ++ [(⟨launchSpecOf s.mgr _, .created, none, 0⟩ : PTask)] = _
    unfold launchSpecOf
    rw [htr]
  · intro i hlt hsome
    rw [if_neg (not_le.mpr hlt)]
    unfold replaceActive
    rw [hsome]
    exact ⟨rfl, rfl⟩

/-- Witness for `fade_out_amended` on the playing state with a 100-second track
at position 5: the unfinished task is cancelled and the suspended relaunch
carries `seek_seconds = 5`, `fade_in = 0` and fade duration `min 10 95`. -/
theorem fade_out_amended_witness :
    (fade_out env0 sysPlaying 15 10).tasks = modifyIdx PTask.cancelReq sysPlaying.tasks 0 ∧
    (fade_out env0 sysPlaying 15 10).pending = [⟨ResumeKind.fade 5 (min 10 95), 0⟩] :=
  (fade_out_amended env0 sysPlaying "a.mp3" 15 10 5 95 rfl rfl rfl (by norm_num
    [get_current_position, sysPlaying, initMgr, voiceBusy]) (by norm_num [env0])).2.2 0
    (by norm_num) rfl

/-- Helper: requesting cancellation twice is the same as requesting it once. -/
theorem cancelReq_idem (t : PTask) : t.cancelReq.cancelReq = t.cancelReq := by
  cases h : t.status.isTerminal <;> simp [PTask.cancelReq, h]

/-- Helper: cancelling the same position twice is the same as cancelling once. -/
theorem modifyIdx_cancelReq_twice (l : List PTask) (i : Nat) :
    modifyIdx PTask.cancelReq (modifyIdx PTask.cancelReq l i) i =
      modifyIdx PTask.cancelReq l i := by
  induction l generalizing i with
  | nil => rfl
  | cons t ts ih =>
    cases i with
    | zero => simp [modifyIdx, cancelReq_idem]
    | succ n => simp [modifyIdx, ih]

/-- Helper: `stop` leaves `self._play_task` untouched. -/
theorem stop_play_task (s : Sys) : (stop s).play_task = s.play_task := by
  unfold stop clearTrack cancelActive
  split_ifs with h <;> cases hpt : s.play_task <;> simp [hpt]

/-- Helper: the task-list effect of `stop` when a task id is recorded. -/
theorem stop_tasks_some (s : Sys) (i : Nat) (hpt : s.play_task = some i) :
    (stop s).tasks = modifyIdx PTask.cancelReq s.tasks i := by
  unfold stop
  split_ifs with h
  · rw [cancelActive_some { s with mgr := s.mgr.setPlaying false } i hpt]
    rfl
  · rw [cancelActive_some s i hpt]
    rfl

/-- C9: `stop()` cancels the unfinished task when one exists, clears the current
track and category (leaving the machine idle), and is idempotent: a second
`stop()` immediately afterwards changes nothing and (being a total function of
the state) raises no error. -/
theorem stop_idempotent_spec (s : Sys) :
    stop (stop s) = stop s ∧
    (stop s).mgr.current_track = none ∧
    (stop s).mgr.current_type = none ∧
    (∀ i t, s.play_task = some i → s.tasks.get? i = some t →
      t.status.isTerminal = false →
      (stop s).tasks.get? i = some { t with status := .cancelRequested }) := by
  refine ⟨?_, rfl, rfl, ?_⟩
  · cases hv : s.mgr.voice with
    | none =>
      cases hpt : s.play_task with
      | none =>
        simp [stop, clearTrack, cancelActive, AudioSourceManager.voicePlaying,
          AudioSourceManager.setPlaying, hv, hpt]
      | some i =>
        simp [stop, clearTrack, cancelActive, AudioSourceManager.voicePlaying,
          AudioSourceManager.setPlaying, hv, hpt, modifyIdx_cancelReq_twice]
    | some v =>
      cases hpt : s.play_task with
      | none =>
        cases hpl : v.playing <;>
          simp [stop, clearTrack, cancelActive, AudioSourceManager.voicePlaying,
            AudioSourceManager.setPlaying, hv, hpt, hpl]
      | some i =>
        cases hpl : v.playing <;>
          simp [stop, clearTrack, cancelActive, AudioSourceManager.voicePlaying,
            AudioSourceManager.setPlaying, hv, hpt, hpl, modifyIdx_cancelReq_twice]
  · intro i t hpt ht hnt
    rw [stop_tasks_some s i hpt, get?_modifyIdx, if_pos rfl, ht]
    simp only [Option.map_some']
    rw [cancelReq_of_not_terminal t hnt]

/-- Witness for `stop_idempotent_spec` on the playing state: the unfinished
task 0 is cancelled. -/
theorem stop_idempotent_spec_witness :
    (stop sysPlaying).tasks.get? 0 =
      some ⟨⟨some "a.mp3", 0, 0, 0⟩, .cancelRequested, some (playSourceSpec 100 1 0 0 0), 0⟩ :=
  (stop_idempotent_spec sysPlaying).2.2.2 0
    ⟨⟨some "a.mp3", 0, 0, 0⟩, TaskStatus.playing, some (playSourceSpec 100 1 0 0 0), 0⟩
    rfl rfl rfl

/-- C10: `set_loop(c, False)` cancels the unfinished playback task no matter
which category that task belongs to: the guard at audio.py line 62 checks only
`not enable and self._play_task and not self._play_task.done()` and never
compares the active track's category against `c`. -/
theorem set_loop_cancels_any_category (s : Sys) (c c2 : Category) (i : Nat) (t : PTask)
    (hty : s.mgr.current_type = some c2) (hne : c2 ≠ c)
    (hpt : s.play_task = some i) (ht : s.tasks.get? i = some t)
    (hnt : t.status.isTerminal = false) :
    (set_loop s c false).tasks.get? i = some { t with status := .cancelRequested } ∧
    (set_loop s c false).mgr.loop_flags c = false := by
  constructor
  · unfold set_loop
    rw [if_pos rfl, cancelActive_some (setLoopFlags s c false) i hpt]
    show (modifyIdx PTask.cancelReq s.tasks i).get? i = _
    rw [get?_modifyIdx, if_pos rfl, ht]
    simp only [Option.map_some']
    rw [cancelReq_of_not_terminal t hnt]
  · unfold set_loop
    rw [if_pos rfl, cancelActive_some (setLoopFlags s c false) i hpt]
    show (if c = c then false else s.mgr.loop_flags c) = false
    rw [if_pos rfl]

/-- Witness for `set_loop_cancels_any_category`: disabling the `ambient` loop
while a `music` task is streaming cancels that task. -/
theorem set_loop_cancels_any_category_witness :
    (set_loop sysPlaying Category.ambient false).tasks.get? 0 =
      some ⟨⟨some "a.mp3", 0, 0, 0⟩, .cancelRequested, some (playSourceSpec 100 1 0 0 0), 0⟩ ∧
    (set_loop sysPlaying Category.ambient false).mgr.loop_flags Category.ambient = false :=
  set_loop_cancels_any_category sysPlaying Category.ambient Category.music 0
    ⟨⟨some "a.mp3", 0, 0, 0⟩, TaskStatus.playing, some (playSourceSpec 100 1 0 0 0), 0⟩
    rfl (by decide) rfl rfl rfl

end RPAMusicBot
